import Mathlib

/-!
# unifi-api: a Caddy middleware that lists, blocks and unblocks network clients

Shallow embedding of `handler.go` and `plugin.go`.

The middleware talks to three collaborators that live outside the repository:
the controller session (`unifi.Session`), the cache bridge (`nats.Subscriber`)
and the HTTP plumbing (`net/http`, `httprouter`, `encoding/json`, `zap`, the
Caddyfile dispenser).  Remote calls are modelled as oracles over an external
world state `σ` (record `Env`); everything the handlers do with the results is
translated from the source.  Two ghost components are threaded along: the trace
of remote calls (`World.calls`) and the records handed to the logger
(`World.logs`).
-/

namespace Unifi

/-! ## Values -/

/-- Hardware address: `unifi.MAC`, a Go string type. -/
abbrev MAC := String

/-- A Go slice as a value: `nil` is the nil slice (what `var s []T` declares),
`mk xs` a non-nil slice holding `xs`. -/
inductive Slice (α : Type) where
  | nil : Slice α
  | mk (elems : List α) : Slice α
deriving DecidableEq, Repr

/-- Elements of a slice, in order; what `range` iterates over. -/
def Slice.toList {α : Type} : Slice α → List α
  | .nil => []
  | .mk xs => xs

/-- Go `append(s, x)`: the result is never nil. -/
def Slice.push {α : Type} (s : Slice α) (x : α) : Slice α :=
  .mk (s.toList ++ [x])

/-- The slice after appending the elements of `l` to `s`, one `append` each,
in order. -/
def Slice.pushAll {α : Type} (s : Slice α) (l : List α) : Slice α :=
  l.foldl Slice.push s

/-- The slice a loop builds by appending the elements of `l`, in order, to a
slice declared with `var`: nil when `l` is empty. -/
def Slice.collect {α : Type} (l : List α) : Slice α :=
  Slice.pushAll Slice.nil l

/-- Go `error` values that occur at request time. -/
inductive GoError where
  /-- an error value returned by a collaborator, with its text -/
  | ext (text : String) : GoError
  /-- the value of `fmt.Errorf("%s: %w", msg, err)` -/
  | wrapf (msg : String) (err : GoError) : GoError
deriving DecidableEq, Repr

/-- The text of an error, `err.Error()`. -/
def GoError.Error : GoError → String
  | .ext text => text
  | .wrapf msg err => msg ++ ": " ++ err.Error

/-- Log levels used by the middleware. -/
inductive Level where
  | debug | warn | error
deriving DecidableEq, Repr

/-- One call on the `zap` logger: level, message and the fields in order.
`zap.Error(err)` is the field `("error", err.Error())`, `zap.String(k, v)` is
`(k, v)`. -/
structure LogRecord where
  level : Level
  msg : String
  fields : List (String × String)
deriving DecidableEq, Repr

/-- The exported fields of `unifi.Session` that `initSession` fills in. -/
structure Session where
  Endpoint : String
  Username : String
  Password : String
deriving DecidableEq, Repr

/-- One remote call made by a handler (ghost trace). -/
inductive Call where
  | Initialize : Call
  | Login : Call
  | GetNames : Call
  | Block (mac : MAC) : Call
  | Unblock (mac : MAC) : Call
  | Get (url bucket key : String) : Call
deriving DecidableEq, Repr

/-- The result of `ses.GetNames()`: `map[string][]unifi.MAC`, read through
`names[victim]`, which yields the slice and whether the key is present. -/
abbrev NameIndex := String → Option (List MAC)

/-- State threaded through a request: the external world `ext` (controller,
session internals, cache), the trace of remote calls and the log records. -/
structure World (σ : Type) where
  ext : σ
  calls : List Call
  logs : List LogRecord

/-- Record a remote call and the external state it leaves. -/
def World.called {σ : Type} (w : World σ) (c : Call) (ext : σ) : World σ :=
  { w with ext := ext, calls := w.calls ++ [c] }

/-- Hand one record to the logger. -/
def World.log {σ : Type} (w : World σ) (level : Level) (msg : String)
    (fields : List (String × String)) : World σ :=
  { w with logs := w.logs ++ [⟨level, msg, fields⟩] }

/-- The collaborators, as oracles over the external state `σ`.
`Client` is `unifi.Client`, whose declaration is outside the repository. -/
structure Env (σ Client : Type) where
  /-- `(*unifi.Session).Initialize` -/
  Initialize : Session → σ → Option GoError × σ
  /-- `(*unifi.Session).Login`: the controller message and the error -/
  Login : Session → σ → (String × Option GoError) × σ
  /-- `(*unifi.Session).GetNames` -/
  GetNames : Session → σ → Except GoError NameIndex × σ
  /-- `(*unifi.Session).Block` (the first result is discarded by the caller) -/
  Block : Session → MAC → σ → Option GoError × σ
  /-- `(*unifi.Session).Unblock` -/
  Unblock : Session → MAC → σ → Option GoError × σ
  /-- `nats.NewSubscriber(nats.OptNATSUrl(url)).Get(bucket, key, &into)` with
  `into` a `[]unifi.Client` -/
  Get : String → String → String → σ → Except GoError (Slice Client) × σ
  /-- `nats.DetailBucket` -/
  DetailBucket : String → String
  /-- `nats.ActiveKey` -/
  ActiveKey : String
  /-- `json.Marshal` of one `unifi.Client` -/
  marshalClient : Client → Except GoError String
  /-- `json.Marshal` of one `unifi.MAC` -/
  marshalMAC : MAC → Except GoError String
  /-- The answer of the router's path correction (trailing-slash
  recommendation and case-insensitive lookup) for a method and a path that
  matched no route: the `Location` to redirect to and the same URL
  HTML-escaped, when there is one. -/
  fixPath : String → String → Option (String × String)

/-! ## `net/http` response writer -/

/-- Bytes allowed in a header field name (`validHeaderFieldByte`). -/
def validHeaderFieldByte (c : Char) : Bool :=
  c.isAlphanum || "!#$%&'*+-.^_|~".toList.contains c || c.toNat = 96

/-- The canonicalisation loop of `textproto.CanonicalMIMEHeaderKey`: the first
letter and every letter after a hyphen in upper case, the others in lower case. -/
def canonLoop : Bool → List Char → List Char
  | _, [] => []
  | upper, c :: cs =>
    let c1 := if upper then c.toUpper else c.toLower
    c1 :: canonLoop (c1 = '-') cs

/-- `textproto.CanonicalMIMEHeaderKey`: a key that holds a byte that is not
allowed in a field name is returned unchanged. -/
def CanonicalMIMEHeaderKey (s : String) : String :=
  if s.toList.all validHeaderFieldByte then String.mk (canonLoop true s.toList) else s

/-- `http.Header` restricted to what `Set` and `Get` can observe: one value per
canonical key. -/
abbrev Header := List (String × String)

/-- `Header.Get`: the value under the canonical key, `""` when absent. -/
def Header.Get (h : Header) (key : String) : String :=
  match h.lookup (CanonicalMIMEHeaderKey key) with
  | some v => v
  | none => ""

/-- `Header.Set`: replace the value under the canonical key. -/
def Header.Set (h : Header) (key value : String) : Header :=
  (CanonicalMIMEHeaderKey key, value) :: h.filter (fun kv => kv.1 ≠ CanonicalMIMEHeaderKey key)

/-- Whether the header map has an entry under the canonical key. -/
def Header.has (h : Header) (key : String) : Bool :=
  (h.lookup (CanonicalMIMEHeaderKey key)).isSome

/-- An `http.ResponseWriter` as a recorder: the header map, the status line
once written (`none` before), and the body written so far.  Writes do not fail. -/
structure ResponseWriter where
  header : Header
  status : Option Nat
  body : String
deriving DecidableEq, Repr

/-- `rw.Header().Set(key, value)`. -/
def ResponseWriter.setHeader (rw : ResponseWriter) (key value : String) : ResponseWriter :=
  { rw with header := Header.Set rw.header key value }

/-- `rw.WriteHeader(code)`: only the first status counts. -/
def ResponseWriter.WriteHeader (rw : ResponseWriter) (code : Nat) : ResponseWriter :=
  match rw.status with
  | none => { rw with status := some code }
  | some _ => rw

/-- `rw.Write(p)`: the first write sends status 200 when none was written. -/
def ResponseWriter.Write (rw : ResponseWriter) (p : String) : ResponseWriter :=
  { (rw.WriteHeader 200) with body := (rw.WriteHeader 200).body ++ p }

/-- `http.StatusInternalServerError`. -/
def StatusInternalServerError : Nat := 500

/-- `http.StatusOK`. -/
def StatusOK : Nat := 200

/-- A response writer nothing was written to. -/
def ResponseWriter.empty : ResponseWriter := { header := [], status := none, body := "" }

/-! ## `encoding/json` -/

/-- Marshal the elements of a list in order; the first element that fails to
marshal fails the whole. -/
def marshalAll {α : Type} (marshal : α → Except GoError String) :
    List α → Except GoError (List String)
  | [] => .ok []
  | x :: xs =>
    match marshal x with
    | .error err => .error err
    | .ok s =>
      match marshalAll marshal xs with
      | .error err => .error err
      | .ok ss => .ok (s :: ss)

/-- `json.Marshal` of a slice: `null` for the nil slice, otherwise the elements
in order between brackets, separated by commas. -/
def marshalSlice {α : Type} (marshal : α → Except GoError String) :
    Slice α → Except GoError String
  | .nil => .ok "null"
  | .mk xs =>
    match marshalAll marshal xs with
    | .ok parts => .ok ("[" ++ ",".intercalate parts ++ "]")
    | .error err => .error err

/-- Go string order on the characters: lexicographic by code point. -/
def ltChars : List Char → List Char → Bool
  | [], [] => false
  | [], _ :: _ => true
  | _ :: _, [] => false
  | a :: as, b :: bs => a.toNat < b.toNat || (a.toNat = b.toNat && ltChars as bs)

/-- Go `a < b` on strings. -/
def strLt (a b : String) : Bool := ltChars a.toList b.toList

/-- Insert a key/value pair into a list sorted by key. -/
def insertByKey {β : Type} (kv : String × β) : List (String × β) → List (String × β)
  | [] => [kv]
  | x :: xs => if strLt kv.1 x.1 then kv :: x :: xs else x :: insertByKey kv xs

/-- The entries of a map in the order `json.Marshal` emits them: sorted by key. -/
def sortByKey {β : Type} : List (String × β) → List (String × β)
  | [] => []
  | x :: xs => insertByKey x (sortByKey xs)

/-- `json.Marshal` of the entries of a `map[string]interface{}` whose values are
`[]unifi.MAC`; the keys used by the handlers need no escaping. -/
def marshalEntries (marshalMAC : MAC → Except GoError String) :
    List (String × Slice MAC) → Except GoError (List String)
  | [] => .ok []
  | (k, v) :: rest =>
    match marshalSlice marshalMAC v with
    | .error err => .error err
    | .ok s =>
      match marshalEntries marshalMAC rest with
      | .error err => .error err
      | .ok ss => .ok (("\"" ++ k ++ "\":" ++ s) :: ss)

/-- `json.Marshal` of a `map[string]interface{}` with `[]unifi.MAC` values. -/
def marshalMap (marshalMAC : MAC → Except GoError String) (m : List (String × Slice MAC)) :
    Except GoError String :=
  match marshalEntries marshalMAC (sortByKey m) with
  | .error err => .error err
  | .ok ss => .ok ("\x7b" ++ ",".intercalate ss ++ "\x7d")

/-- `json.NewEncoder(rw).Encode(v)` given the result of marshalling `v`: on
success the encoding and a newline are written, on failure nothing is. -/
def Encode (rw : ResponseWriter) (marshalled : Except GoError String) :
    Option GoError × ResponseWriter :=
  match marshalled with
  | .error err => (some err, rw)
  | .ok s => (none, rw.Write (s ++ "\n"))

/-! ## `httprouter` -/

/-- The path parameters handed to a handler (`httprouter.Params`). -/
abbrev Params := List (String × String)

/-- `Params.ByName`: the value of the first parameter with that name, `""`
when there is none. -/
def Params.ByName (ps : Params) (name : String) : String :=
  match ps.lookup name with
  | some v => v
  | none => ""

/-- The parts of an `http.Request` the middleware and the router read. -/
structure Request where
  Method : String
  /-- `r.URL.Path`, what the router matches -/
  Path : String
  RequestURI : String
  RemoteAddr : String
  Header : Header
deriving DecidableEq, Repr

/-- The four handler methods of `API` a route can point to. -/
inductive Handle where
  | index | list | block | unblock
deriving DecidableEq, Repr

/-- One registration `router.Handle(method, path, handle)`. -/
structure Route where
  method : String
  path : String
  handle : Handle
deriving DecidableEq, Repr

/-- Split a list of characters at every `/`. -/
def splitSlash : List Char → List (List Char)
  | [] => [[]]
  | c :: cs =>
    match splitSlash cs with
    | [] => [[c]]
    | seg :: segs => if c = '/' then [] :: seg :: segs else (c :: seg) :: segs

/-- Match the segments of a route pattern against the segments of a path: a
segment `:name` of the pattern takes one whole non-empty segment of the path,
any other segment must be equal. -/
def matchSegs : List (List Char) → List (List Char) → Option Params
  | [], [] => some []
  | p :: ps, s :: ss =>
    match p with
    | ':' :: name =>
      if s = [] then none
      else
        match matchSegs ps ss with
        | some rest => some ((String.mk name, String.mk s) :: rest)
        | none => none
    | _ => if p = s then matchSegs ps ss else none
  | _, _ => none

/-- Whether a registered pattern matches a request path, and with which
parameters.  Both start with `/`. -/
def matchPath (pattern path : String) : Option Params :=
  match pattern.toList, path.toList with
  | '/' :: p, '/' :: s => matchSegs (splitSlash p) (splitSlash s)
  | _, _ => none

/-- The handle lookup `r.trees[method].getValue(path)` of the router, for
routes made of fixed segments and `:name` segments: the route of that method
whose pattern matches the path, with the values of its parameters. -/
def getValue : List Route → String → String → Option (Handle × Params)
  | [], _, _ => none
  | rt :: rest, method, path =>
    if rt.method = method then
      match matchPath rt.path path with
      | some ps => some (rt.handle, ps)
      | none => getValue rest method path
    else getValue rest method path

/-- The methods that have a tree, in order of first registration. -/
def treeMethods : List Route → List String
  | [] => []
  | rt :: rest => rt.method :: (treeMethods rest).filter (fun m => m ≠ rt.method)

/-- Insert a string into a sorted list. -/
def insertSorted (x : String) : List String → List String
  | [] => [x]
  | y :: ys => if strLt x y then x :: y :: ys else y :: insertSorted x ys

/-- Sort method names. -/
def sortMethods : List String → List String
  | [] => []
  | x :: xs => insertSorted x (sortMethods xs)

/-- A `*httprouter.Router`: its registrations and its exported settings. -/
structure Router where
  routes : List Route
  RedirectTrailingSlash : Bool
  RedirectFixedPath : Bool
  HandleMethodNotAllowed : Bool
  HandleOPTIONS : Bool
  /-- `NotFound`, `none` for nil -/
  NotFound : Option (ResponseWriter → Request → ResponseWriter)
  /-- `MethodNotAllowed`, `none` for nil -/
  MethodNotAllowed : Option (ResponseWriter → Request → ResponseWriter)

/-- `httprouter.New()`: path auto-correction (`RedirectTrailingSlash`,
`RedirectFixedPath`), 405 answers (`HandleMethodNotAllowed`) and OPTIONS
answers (`HandleOPTIONS`) are enabled by default; no handler is installed. -/
def Router.New : Router :=
  { routes := []
    RedirectTrailingSlash := true
    RedirectFixedPath := true
    HandleMethodNotAllowed := true
    HandleOPTIONS := true
    NotFound := none
    MethodNotAllowed := none }

/-- `router.GET(path, handle)`. -/
def Router.GET (rt : Router) (path : String) (h : Handle) : Router :=
  { rt with routes := rt.routes ++ [⟨"GET", path, h⟩] }

/-- `router.PUT(path, handle)`. -/
def Router.PUT (rt : Router) (path : String) (h : Handle) : Router :=
  { rt with routes := rt.routes ++ [⟨"PUT", path, h⟩] }

/-- `(*Router).allowed(path, reqMethod)` for a request method: the other
methods (OPTIONS apart) that have a handle for the path, with OPTIONS added,
sorted and joined; for the server-wide path `*` every method with a tree. -/
def Router.allowed (rt : Router) (path reqMethod : String) : String :=
  let found :=
    if path = "*" then (treeMethods rt.routes).filter (fun m => m ≠ "OPTIONS")
    else (treeMethods rt.routes).filter
      (fun m => m ≠ reqMethod && m ≠ "OPTIONS" && (getValue rt.routes m path).isSome)
  if found = [] then "" else ", ".intercalate (sortMethods (found ++ ["OPTIONS"]))

/-- `http.Error(w, text, code)`. -/
def httpError (rw : ResponseWriter) (text : String) (code : Nat) : ResponseWriter :=
  (((rw.setHeader "Content-Type" "text/plain; charset=utf-8").setHeader
    "X-Content-Type-Options" "nosniff").WriteHeader code).Write (text ++ "\n")

/-- `http.StatusText` for the codes the router sends. -/
def StatusText (code : Nat) : String :=
  if code = 301 then "Moved Permanently"
  else if code = 307 then "Temporary Redirect"
  else if code = 405 then "Method Not Allowed"
  else ""

/-- `http.Redirect(w, r, url, code)`, with `loc` the escaped `Location` and
`href` the HTML-escaped URL. -/
def httpRedirect (rw : ResponseWriter) (method : String) (loc href : String) (code : Nat) :
    ResponseWriter :=
  let hadCT := Header.has rw.header "Content-Type"
  let rw1 := rw.setHeader "Location" loc
  let rw2 := if !hadCT && (method = "GET" || method = "HEAD") then
    rw1.setHeader "Content-Type" "text/html; charset=utf-8" else rw1
  let rw3 := rw2.WriteHeader code
  if !hadCT && method = "GET" then
    rw3.Write ("<a href=\"" ++ href ++ "\">" ++ StatusText code ++ "</a>.\n" ++ "\n")
  else rw3

/-- `(*Router).ServeHTTP`, in the order of the library:
1. when the method has a tree and a route matches the path, the handle runs;
2. when the method has a tree, no route matches, the method is not CONNECT and
   the path is not `/`, a corrected path (if path correction is enabled and
   finds one) is answered with a redirect, 301 for GET and 307 otherwise;
3. an OPTIONS request, with `HandleOPTIONS`, for a path some other method has a
   handle for is answered with the `Allow` header alone;
4. any other request, with `HandleMethodNotAllowed`, for a path some other
   method has a handle for is answered by `MethodNotAllowed`, or when that is
   nil with `Allow` and `http.Error` 405;
5. what is left goes to `NotFound`, or when that is nil to `http.NotFound`.
`call` runs a registered handle; `fixPath` answers the path correction of the
tree. -/
def Router.ServeHTTP {σ : Type} (rt : Router)
    (call : Handle → Params → ResponseWriter → Request → World σ → ResponseWriter × World σ)
    (fixPath : String → String → Option (String × String))
    (rw : ResponseWriter) (r : Request) (w : World σ) : ResponseWriter × World σ :=
  let notFound : ResponseWriter × World σ :=
    match rt.NotFound with
    | some h => (h rw r, w)
    | none => (httpError rw "404 page not found" 404, w)
  let fallback : ResponseWriter × World σ :=
    if r.Method = "OPTIONS" && rt.HandleOPTIONS then
      if rt.allowed r.Path "OPTIONS" ≠ "" then
        (rw.setHeader "Allow" (rt.allowed r.Path "OPTIONS"), w)
      else notFound
    else if rt.HandleMethodNotAllowed then
      if rt.allowed r.Path r.Method ≠ "" then
        match rt.MethodNotAllowed with
        | some h => (h (rw.setHeader "Allow" (rt.allowed r.Path r.Method)) r, w)
        | none =>
          (httpError (rw.setHeader "Allow" (rt.allowed r.Path r.Method)) (StatusText 405) 405, w)
      else notFound
    else notFound
  if (treeMethods rt.routes).contains r.Method then
    match getValue rt.routes r.Method r.Path with
    | some (h, ps) => call h ps rw r w
    | none =>
      if r.Method ≠ "CONNECT" && r.Path ≠ "/" &&
          (rt.RedirectTrailingSlash || rt.RedirectFixedPath) then
        match fixPath r.Method r.Path with
        | some (loc, href) =>
          (httpRedirect rw r.Method loc href (if r.Method = "GET" then 301 else 307), w)
        | none => fallback
      else fallback
  else fallback

/-! ## The middleware -/

/-- A `*zap.Logger`. -/
structure Logger where
  name : String
deriving DecidableEq, Repr

/-- The module `API` of `plugin.go`; `none` is a nil pointer. -/
structure API where
  BaseURL : String
  NATSURL : String
  Username : String
  Password : String
  logger : Option Logger
  router : Option Router

/-- `new(API)`: the zero value. -/
def API.zero : API :=
  { BaseURL := "", NATSURL := "", Username := "", Password := "", logger := none, router := none }

/-- Constant `baseSubject`. -/
def baseSubject : String := "unifi"

/-- The handler installed as `router.NotFound` by `registerRouter`. -/
def notFoundHandler (rw : ResponseWriter) (_r : Request) : ResponseWriter :=
  rw.setHeader "not-found" "true"

/-- Method `API.registerRouter`: the router that is stored in `a.router`. -/
def registerRouter : Router :=
  let router := Router.New
  let router := router.GET "/" Handle.index
  let router := router.GET "/list" Handle.list
  let router := router.PUT "/block/:name" Handle.block
  let router := router.PUT "/unblock/:name" Handle.unblock
  { router with NotFound := some notFoundHandler }

/-- Method `API.index`. -/
def index (rw : ResponseWriter) : ResponseWriter :=
  (rw.setHeader "content-type" "application/json").Write "{}"

/-- Method `API.list`. -/
def list {σ Client : Type} (a : API) (env : Env σ Client) (rw : ResponseWriter) (w : World σ) :
    ResponseWriter × World σ :=
  let bucket := env.DetailBucket baseSubject
  let got := env.Get a.NATSURL bucket env.ActiveKey w.ext
  let w1 := w.called (Call.Get a.NATSURL bucket env.ActiveKey) got.2
  match got.1 with
  | .error err =>
    ((rw.WriteHeader StatusInternalServerError),
      w1.log Level.error "list: unable to get clients" [("error", err.Error)])
  | .ok into =>
    let rw1 := rw.setHeader "content-type" "application/json"
    let enc := Encode rw1 (marshalSlice env.marshalClient into)
    match enc.1 with
    | some err =>
      (enc.2.WriteHeader StatusInternalServerError,
        w1.log Level.error "list: unable to json encode clients" [("error", err.Error)])
    | none => (enc.2, w1)

/-- Method `API.initSession`. -/
def initSession {σ Client : Type} (a : API) (env : Env σ Client) (w : World σ) :
    Except GoError Session × World σ :=
  let ses : Session := { Endpoint := a.BaseURL, Username := a.Username, Password := a.Password }
  let ini := env.Initialize ses w.ext
  let w1 := w.called Call.Initialize ini.2
  match ini.1 with
  | some err =>
    (.error err,
      w1.log Level.error "initSession: unable to Initialize session"
        [("error", err.Error), ("endpoint", a.BaseURL), ("username", a.Username)])
  | none =>
    let lgn := env.Login ses w1.ext
    let w2 := w1.called Call.Login lgn.2
    match lgn.1.2 with
    | some err =>
      (.error (GoError.wrapf lgn.1.1 err),
        w2.log Level.error "initSession: unable to login session"
          [("error", err.Error), ("message", lgn.1.1), ("endpoint", a.BaseURL),
            ("username", a.Username)])
    | none => (.ok ses, w2)

/-- The local state of the loop over the resolved addresses: the world, the
success slice and the failure slice. -/
structure Outcome (σ : Type) where
  w : World σ
  done : Slice MAC
  notDone : Slice MAC

/-- One iteration of the loop of `block`. -/
def blockStep {σ Client : Type} (env : Env σ Client) (ses : Session) (st : Outcome σ)
    (mac : MAC) : Outcome σ :=
  let res := env.Block ses mac st.w.ext
  let w1 := st.w.called (Call.Block mac) res.2
  match res.1 with
  | some err =>
    { w := w1.log Level.warn "block: unable to block mac" [("error", err.Error), ("mac", mac)]
      done := st.done
      notDone := st.notDone.push mac }
  | none => { w := w1, done := st.done.push mac, notDone := st.notDone }

/-- One iteration of the loop of `unblock`. -/
def unblockStep {σ Client : Type} (env : Env σ Client) (ses : Session) (st : Outcome σ)
    (mac : MAC) : Outcome σ :=
  let res := env.Unblock ses mac st.w.ext
  let w1 := st.w.called (Call.Unblock mac) res.2
  match res.1 with
  | some err =>
    { w := w1.log Level.warn "unblock: unable to unblock mac"
        [("error", err.Error), ("mac", mac)]
      done := st.done
      notDone := st.notDone.push mac }
  | none => { w := w1, done := st.done.push mac, notDone := st.notDone }

/-- Lines 92-107 of `block`: both slices start nil; when the name is in the
index its addresses are processed in order. -/
def blockAll {σ Client : Type} (env : Env σ Client) (ses : Session) (names : NameIndex)
    (victim : String) (w : World σ) : Outcome σ :=
  match names victim with
  | some macs => macs.foldl (blockStep env ses) { w := w, done := Slice.nil, notDone := Slice.nil }
  | none => { w := w, done := Slice.nil, notDone := Slice.nil }

/-- Lines 136-151 of `unblock`. -/
def unblockAll {σ Client : Type} (env : Env σ Client) (ses : Session) (names : NameIndex)
    (victim : String) (w : World σ) : Outcome σ :=
  match names victim with
  | some macs =>
    macs.foldl (unblockStep env ses) { w := w, done := Slice.nil, notDone := Slice.nil }
  | none => { w := w, done := Slice.nil, notDone := Slice.nil }

/-- Method `API.block`. -/
def block {σ Client : Type} (a : API) (env : Env σ Client) (params : Params)
    (rw : ResponseWriter) (w : World σ) : ResponseWriter × World σ :=
  let opened := initSession a env w
  match opened.1 with
  | .error _ => (rw.WriteHeader StatusInternalServerError, opened.2)
  | .ok ses =>
    let got := env.GetNames ses opened.2.ext
    let w1 := opened.2.called Call.GetNames got.2
    match got.1 with
    | .error err =>
      (rw.WriteHeader StatusInternalServerError,
        w1.log Level.error "block: unable to get names" [("error", err.Error)])
    | .ok names =>
      let out := blockAll env ses names (Params.ByName params "name") w1
      let rw1 := rw.setHeader "content-type" "application/json"
      let enc := Encode rw1
        (marshalMap env.marshalMAC [("blocked", out.done), ("not_blocked", out.notDone)])
      match enc.1 with
      | some err =>
        (enc.2.WriteHeader StatusInternalServerError,
          out.w.log Level.error "block: unable to json encode results" [("error", err.Error)])
      | none => (enc.2, out.w)

/-- Method `API.unblock`. -/
def unblock {σ Client : Type} (a : API) (env : Env σ Client) (params : Params)
    (rw : ResponseWriter) (w : World σ) : ResponseWriter × World σ :=
  let opened := initSession a env w
  match opened.1 with
  | .error _ => (rw.WriteHeader StatusInternalServerError, opened.2)
  | .ok ses =>
    let got := env.GetNames ses opened.2.ext
    let w1 := opened.2.called Call.GetNames got.2
    match got.1 with
    | .error err =>
      (rw.WriteHeader StatusInternalServerError,
        w1.log Level.error "unblock: unable to get names" [("error", err.Error)])
    | .ok names =>
      let out := unblockAll env ses names (Params.ByName params "name") w1
      let rw1 := rw.setHeader "content-type" "application/json"
      let enc := Encode rw1
        (marshalMap env.marshalMAC [("unblocked", out.done), ("not_unblocked", out.notDone)])
      match enc.1 with
      | some err =>
        (enc.2.WriteHeader StatusInternalServerError,
          out.w.log Level.error "unblock: unable to json encode results"
            [("error", err.Error)])
      | none => (enc.2, out.w)

/-- The method of `a` a registered handle stands for. -/
def callHandle {σ Client : Type} (a : API) (env : Env σ Client) (h : Handle) (params : Params)
    (rw : ResponseWriter) (_r : Request) (w : World σ) : ResponseWriter × World σ :=
  match h with
  | Handle.index => (index rw, w)
  | Handle.list => list a env rw w
  | Handle.block => block a env params rw w
  | Handle.unblock => unblock a env params rw w

/-- The next handler of the chain (`caddyhttp.Handler`). -/
abbrev Next (σ : Type) := ResponseWriter → Request → World σ → Option GoError × ResponseWriter × World σ

/-- What serving a request yields: the returned error, the response and the
world; `none` when the call panics on a nil `logger` or a nil `router`. -/
abbrev Served (σ : Type) := Option (Option GoError × ResponseWriter × World σ)

/-- Method `API.ServeHTTP`. -/
def ServeHTTP {σ Client : Type} (a : API) (env : Env σ Client) (rw : ResponseWriter)
    (r : Request) (next : Next σ) (w : World σ) : Served σ :=
  match a.logger, a.router with
  | some _, some router =>
    let w1 := w.log Level.debug "ServeHTTP"
      [("method", r.Method), ("path", r.RequestURI), ("remote addr", r.RemoteAddr),
        ("user-agent", Header.Get r.Header "user-agent")]
    let routed := router.ServeHTTP (callHandle a env) env.fixPath rw r w1
    if (Header.Get routed.1.header "not-found").length = 0 then
      some (none, routed.1, routed.2)
    else
      some (next routed.1 r routed.2)
  | _, _ => none

/-! ## Provisioning (`plugin.go`) -/

/-- Errors of the provisioning methods. -/
inductive ConfigError where
  /-- the value of `d.ArgErr()` with the dispenser at the token `val` -/
  | argErr (val : String) : ConfigError
  /-- the value of `fmt.Errorf("unexepected token %q", d.Val())` -/
  | unexpectedToken (val : String) : ConfigError
  /-- the value of `errors.New("logger not initialized")` -/
  | loggerNotInitialized : ConfigError
deriving DecidableEq, Repr

/-- One line of the block of the directive: the token `d.Val()` that opens it
and the arguments that follow on the same line. -/
structure Line where
  val : String
  args : List String
deriving DecidableEq, Repr

/-- The tokens of a `caddyfile.Dispenser` the way the two loops of
`UnmarshalCaddyfile` walk them: one entry for each `d.Next()` (an occurrence of
the directive), holding the lines `d.NextBlock` stops at.  Blocks are flat. -/
abbrev Dispenser := List (List Line)

/-- `d.AllArgs(&target)` with one target: the first argument, when there is
one, is stored; the call succeeds when there is exactly one argument. -/
def AllArgs (args : List String) (target : String) : Bool × String :=
  match args with
  | [] => (false, target)
  | [x] => (true, x)
  | x :: _ :: _ => (false, x)

/-- The token `d.Val()` after a failed `d.AllArgs(&target)`: without an
argument the dispenser is still at the directive; with two or more it has
loaded the first argument and stepped back from the second. -/
def valAfterAllArgs (val : String) (args : List String) : String :=
  match args with
  | [] => val
  | x :: _ => x

/-- The body of the inner loop of `UnmarshalCaddyfile`: the `switch d.Val()`. -/
def unmarshalLine (a : API) (ln : Line) : API × Option ConfigError :=
  if ln.val = "base_url" then
    ({ a with BaseURL := (AllArgs ln.args a.BaseURL).2 },
      if (AllArgs ln.args a.BaseURL).1 then none
      else some (ConfigError.argErr (valAfterAllArgs ln.val ln.args)))
  else if ln.val = "nats_url" then
    ({ a with NATSURL := (AllArgs ln.args a.NATSURL).2 },
      if (AllArgs ln.args a.NATSURL).1 then none
      else some (ConfigError.argErr (valAfterAllArgs ln.val ln.args)))
  else if ln.val = "username" then
    ({ a with Username := (AllArgs ln.args a.Username).2 },
      if (AllArgs ln.args a.Username).1 then none
      else some (ConfigError.argErr (valAfterAllArgs ln.val ln.args)))
  else if ln.val = "password" then
    ({ a with Password := (AllArgs ln.args a.Password).2 },
      if (AllArgs ln.args a.Password).1 then none
      else some (ConfigError.argErr (valAfterAllArgs ln.val ln.args)))
  else (a, some (ConfigError.unexpectedToken ln.val))

/-- The inner loop of `UnmarshalCaddyfile` over the lines of one block; the
first error returns. -/
def unmarshalBlock : API → List Line → API × Option ConfigError
  | a, [] => (a, none)
  | a, ln :: rest =>
    match (unmarshalLine a ln).2 with
    | some err => ((unmarshalLine a ln).1, some err)
    | none => unmarshalBlock (unmarshalLine a ln).1 rest

/-- Method `API.UnmarshalCaddyfile`: the receiver after the call and the error. -/
def UnmarshalCaddyfile : API → Dispenser → API × Option ConfigError
  | a, [] => (a, none)
  | a, blk :: rest =>
    match (unmarshalBlock a blk).2 with
    | some err => ((unmarshalBlock a blk).1, some err)
    | none => UnmarshalCaddyfile (unmarshalBlock a blk).1 rest

/-- A `caddy.Context`, which hands out the logger of the module. -/
structure Context where
  Logger : Logger
deriving DecidableEq, Repr

/-- Method `API.Provision`. -/
def Provision (a : API) (ctx : Context) : API × Option ConfigError :=
  ({ a with logger := some ctx.Logger, router := some registerRouter }, none)

/-- Method `API.Validate`. -/
def Validate (a : API) : Option ConfigError :=
  match a.logger with
  | none => some ConfigError.loggerNotInitialized
  | some _ => none

/-- Function `parseCaddyfile`: a new `API` unmarshalled from the dispenser. -/
def parseCaddyfile (d : Dispenser) : API × Option ConfigError :=
  UnmarshalCaddyfile API.zero d

/-- The provisioning sequence: unmarshal a new module from the Caddyfile, then
`Provision`, then `Validate`; the first error ends it. -/
def provisionSequence (d : Dispenser) (ctx : Context) : Except ConfigError API :=
  match (parseCaddyfile d).2 with
  | some err => .error err
  | none =>
    match (Provision (parseCaddyfile d).1 ctx).2 with
    | some err => .error err
    | none =>
      match Validate (Provision (parseCaddyfile d).1 ctx).1 with
      | some err => .error err
      | none => .ok (Provision (parseCaddyfile d).1 ctx).1

/-! ## Reference descriptions used in the statements -/

/-- The errors returned by the successive calls of a single-address primitive
on the addresses of `macs`, in order, the external state passed from each call
to the next. -/
def callResults {σ : Type} (prim : MAC → σ → Option GoError × σ) :
    List MAC → σ → List (Option GoError)
  | [], _ => []
  | m :: ms, s => (prim m s).1 :: callResults prim ms (prim m s).2

/-- The addresses of `macs` whose call, at the same position of `res`,
returned no error. -/
def succeeded : List MAC → List (Option GoError) → List MAC
  | m :: ms, r :: rs => if r.isNone then m :: succeeded ms rs else succeeded ms rs
  | _, _ => []

/-- The addresses of `macs` whose call, at the same position of `res`,
returned an error. -/
def failed : List MAC → List (Option GoError) → List MAC
  | m :: ms, r :: rs => if r.isSome then m :: failed ms rs else failed ms rs
  | _, _ => []

/-- The session value `initSession` builds from the configuration. -/
def sessionOf (a : API) : Session :=
  { Endpoint := a.BaseURL, Username := a.Username, Password := a.Password }

/-- The result of the `Initialize` call of a control request started in `w`. -/
def initResult {σ Client : Type} (a : API) (env : Env σ Client) (w : World σ) :
    Option GoError × σ :=
  env.Initialize (sessionOf a) w.ext

/-- The result of the `Login` call that follows `Initialize`. -/
def loginResult {σ Client : Type} (a : API) (env : Env σ Client) (w : World σ) :
    (String × Option GoError) × σ :=
  env.Login (sessionOf a) (initResult a env w).2

/-- The result of the `GetNames` call that follows `Login`. -/
def namesResult {σ Client : Type} (a : API) (env : Env σ Client) (w : World σ) :
    Except GoError NameIndex × σ :=
  env.GetNames (sessionOf a) (loginResult a env w).2

/-- The remote calls of a control request up to the setup step that fails:
`Initialize` alone when it fails, `Initialize` and `Login` when `Login` fails,
otherwise these two and `GetNames`. -/
def setupCalls {σ Client : Type} (a : API) (env : Env σ Client) (w : World σ) : List Call :=
  if (initResult a env w).1.isSome then [Call.Initialize]
  else if (loginResult a env w).1.2.isSome then [Call.Initialize, Call.Login]
  else [Call.Initialize, Call.Login, Call.GetNames]

/-- The errors returned by the `Block` calls of a `block` request whose name
resolves to `macs`: the calls start in the external state `GetNames` left. -/
def blockResults {σ Client : Type} (a : API) (env : Env σ Client) (w : World σ)
    (macs : List MAC) : List (Option GoError) :=
  callResults (env.Block (sessionOf a)) macs (namesResult a env w).2

/-- The errors returned by the `Unblock` calls of an `unblock` request whose
name resolves to `macs`. -/
def unblockResults {σ Client : Type} (a : API) (env : Env σ Client) (w : World σ)
    (macs : List MAC) : List (Option GoError) :=
  callResults (env.Unblock (sessionOf a)) macs (namesResult a env w).2

/-- The text of the error of a result, if it is one. -/
def errorText {α : Type} : Except GoError α → Option String
  | .error err => some err.Error
  | .ok _ => none

/-- A request matches one of the four registered routes: `GET /`, `GET /list`,
`PUT /block/:name` or `PUT /unblock/:name`, where `:name` stands for one
non-empty path segment. -/
def MatchesRoute (r : Request) : Prop :=
  (r.Method = "GET" ∧ r.Path = "/") ∨ (r.Method = "GET" ∧ r.Path = "/list") ∨
    (r.Method = "PUT" ∧ ∃ name : String, name ≠ "" ∧ '/' ∉ name.toList ∧
      r.Path = "/block/" ++ name) ∨
    (r.Method = "PUT" ∧ ∃ name : String, name ≠ "" ∧ '/' ∉ name.toList ∧
      r.Path = "/unblock/" ++ name)

/-- A line the `switch` of `UnmarshalCaddyfile` accepts: one of the four
directives, followed by exactly one argument. -/
def WellFormedLine (ln : Line) : Prop :=
  (ln.val = "base_url" ∨ ln.val = "nats_url" ∨ ln.val = "username" ∨ ln.val = "password") ∧
    ∃ x, ln.args = [x]

/-- The configuration gives the directive `key`: some line of some block
starts with it. -/
def Given (d : Dispenser) (key : String) : Prop :=
  ∃ blk ∈ d, ∃ ln ∈ blk, ln.val = key

/-! ## Concrete scenarios -/

/-- A configured module, as provisioning leaves it. -/
def demoAPI : API :=
  { BaseURL := "https://controller:8443", NATSURL := "nats://cache:4222", Username := "admin"
    Password := "hunter2", logger := some ⟨"unifi_api"⟩, router := some registerRouter }

/-- A controller over a counter of control calls: it knows `alice-phone` with
two addresses; it rejects the address ending in `02`, and accepts any other
address on an even count only. -/
def demoEnv : Env Nat String :=
  { Initialize := fun _ s => (none, s)
    Login := fun _ s => (("", none), s)
    GetNames := fun _ s =>
      (.ok (fun n =>
        if n = "alice-phone" then some ["AA:BB:CC:00:00:01", "AA:BB:CC:00:00:02"]
        else none), s)
    Block := fun _ m s =>
      (if m = "AA:BB:CC:00:00:02" ∨ s % 2 = 1 then some (GoError.ext "rejected") else none, s + 1)
    Unblock := fun _ m s =>
      (if m = "AA:BB:CC:00:00:02" ∨ s % 2 = 1 then some (GoError.ext "rejected") else none, s + 1)
    Get := fun _ _ _ s => (.ok (Slice.mk ["\x7b\"mac\":\"01\"\x7d", "\x7b\"mac\":\"02\"\x7d"]), s)
    DetailBucket := fun b => b
    ActiveKey := "active"
    marshalClient := fun c => .ok c
    marshalMAC := fun m => .ok ("\"" ++ m ++ "\"")
    fixPath := fun _ _ => none }

/-- The world at the start of a request. -/
def demoWorld : World Nat := { ext := 0, calls := [], logs := [] }

/-- The name index of `demoEnv`. -/
def demoNames : NameIndex := fun n =>
  if n = "alice-phone" then some ["AA:BB:CC:00:00:01", "AA:BB:CC:00:00:02"]
  else none

/-- A request with the given verb and path. -/
def demoRequest (method path : String) : Request :=
  { Method := method, Path := path, RequestURI := path, RemoteAddr := "10.0.0.9:5000"
    Header := [] }

/-- A next handler that answers 404 with a body. -/
def demoNext : Next Nat := fun rw _ w => (none, (rw.WriteHeader 404).Write "next", w)

/-- A controller whose setup fails at a chosen step: `Initialize` at step 0,
`Login` (with the message `invalid credentials`) at step 1, `GetNames` at step
2; the cache read fails as well.  Every call adds one to the counter. -/
def failingEnv (step : Nat) : Env Nat String :=
  { Initialize := fun _ s =>
      (if step = 0 then some (GoError.ext "no route to host") else none, s + 1)
    Login := fun _ s =>
      (if step = 1 then ("invalid credentials", some (GoError.ext "login failed"))
        else ("", none), s + 1)
    GetNames := fun _ s =>
      (if step = 2 then .error (GoError.ext "lookup failed") else .ok demoNames, s + 1)
    Block := fun _ _ s => (none, s + 1)
    Unblock := fun _ _ s => (none, s + 1)
    Get := fun _ _ _ s => (.error (GoError.ext "cache unreachable"), s + 1)
    DetailBucket := fun b => b
    ActiveKey := "active"
    marshalClient := fun c => .ok c
    marshalMAC := fun m => .ok ("\"" ++ m ++ "\"")
    fixPath := fun _ _ => none }

/-- The demo environment with a controller whose login always fails. -/
def loginFailsEnv : Env Nat String :=
  { demoEnv with
    Login := fun _ s => (("invalid credentials", some (GoError.ext "login failed")), s + 1) }

/-- A configuration with the cache URL of `demoAPI` and other controller
settings. -/
def otherAPI : API :=
  { BaseURL := "https://elsewhere:8443", NATSURL := "nats://cache:4222", Username := "guest"
    Password := "letmein", logger := some ⟨"unifi_api"⟩, router := some registerRouter }

/-- The configuration `demoAPI` with another password. -/
def demoAPIOtherPassword : API :=
  { BaseURL := "https://controller:8443", NATSURL := "nats://cache:4222", Username := "admin"
    Password := "correct horse", logger := some ⟨"unifi_api"⟩, router := some registerRouter }

/-- What one iteration of a control loop does with the result of the
primitive `prim`, recorded as the call `mk`. -/
structure StepSpec {σ : Type} (prim : MAC → σ → Option GoError × σ) (mk : MAC → Call)
    (step : Outcome σ → MAC → Outcome σ) : Prop where
  ext : ∀ st m, (step st m).w.ext = (prim m st.w.ext).2
  calls : ∀ st m, (step st m).w.calls = st.w.calls ++ [mk m]
  done : ∀ st m, (step st m).done =
    if (prim m st.w.ext).1.isNone then st.done.push m else st.done
  notDone : ∀ st m, (step st m).notDone =
    if (prim m st.w.ext).1.isSome then st.notDone.push m else st.notDone

/-! ## The control loop -/

section Loop

variable {σ Client : Type}

theorem Slice.toList_nil {α : Type} : (Slice.nil : Slice α).toList = [] := rfl

theorem Slice.toList_push {α : Type} (s : Slice α) (x : α) :
    (s.push x).toList = s.toList ++ [x] := rfl

theorem blockStep_spec (env : Env σ Client) (ses : Session) :
    StepSpec (env.Block ses) Call.Block (blockStep env ses) := by
  refine ⟨?_, ?_, ?_, ?_⟩ <;> intro st m <;> simp only [blockStep, World.called, World.log] <;>
    split <;> simp_all [Slice.toList_push]

theorem unblockStep_spec (env : Env σ Client) (ses : Session) :
    StepSpec (env.Unblock ses) Call.Unblock (unblockStep env ses) := by
  refine ⟨?_, ?_, ?_, ?_⟩ <;> intro st m <;> simp only [unblockStep, World.called, World.log] <;>
    split <;> simp_all [Slice.toList_push]

theorem callResults_length (prim : MAC → σ → Option GoError × σ) (macs : List MAC) (s : σ) :
    (callResults prim macs s).length = macs.length := by
  induction macs generalizing s with
  | nil => rfl
  | cons m ms ih => simp [callResults, ih]

theorem Slice.toList_pushAll {α : Type} (s : Slice α) (l : List α) :
    (s.pushAll l).toList = s.toList ++ l := by
  induction l generalizing s with
  | nil => simp [Slice.pushAll]
  | cons x xs ih =>
    have h := ih (s.push x)
    simp only [Slice.pushAll, List.foldl_cons] at h ⊢
    rw [h, Slice.toList_push]
    simp

theorem Slice.toList_collect {α : Type} (l : List α) : (Slice.collect l).toList = l := by
  simp [Slice.collect, Slice.toList_pushAll, Slice.toList_nil]

theorem fold_spec {prim : MAC → σ → Option GoError × σ} {mk : MAC → Call}
    {step : Outcome σ → MAC → Outcome σ} (hs : StepSpec prim mk step) (macs : List MAC)
    (st : Outcome σ) :
    (macs.foldl step st).w.calls = st.w.calls ++ macs.map mk ∧
      (macs.foldl step st).done =
        st.done.pushAll (succeeded macs (callResults prim macs st.w.ext)) ∧
      (macs.foldl step st).notDone =
        st.notDone.pushAll (failed macs (callResults prim macs st.w.ext)) := by
  induction macs generalizing st with
  | nil => simp [callResults, succeeded, failed, Slice.pushAll]
  | cons m ms ih =>
    obtain ⟨h1, h2, h3⟩ := ih (step st m)
    simp only [List.foldl_cons, h1, h2, h3, hs.calls, hs.done, hs.notDone, hs.ext, callResults,
      succeeded, failed, List.map_cons]
    cases h : (prim m st.w.ext).1 <;> simp [Slice.pushAll]

theorem succeeded_failed_perm (macs : List MAC) (res : List (Option GoError))
    (h : res.length = macs.length) : (succeeded macs res ++ failed macs res).Perm macs := by
  induction macs generalizing res with
  | nil => cases res <;> simp [succeeded, failed]
  | cons m ms ih =>
    cases res with
    | nil => simp at h
    | cons r rs =>
      have ih1 := ih rs (by simpa using h)
      cases r with
      | none => simpa [succeeded, failed] using ih1
      | some e =>
        simp only [succeeded, failed, Option.isNone_some, Option.isSome_some, if_true]
        exact (List.perm_middle).trans (List.Perm.cons m ih1)

theorem succeeded_sublist (macs : List MAC) (res : List (Option GoError)) :
    (succeeded macs res).Sublist macs := by
  induction macs generalizing res with
  | nil => cases res <;> simp [succeeded]
  | cons m ms ih =>
    cases res with
    | nil => simp [succeeded]
    | cons r rs =>
      cases r with
      | none => simpa [succeeded] using ih rs
      | some e => simpa [succeeded] using (ih rs).cons m

theorem failed_sublist (macs : List MAC) (res : List (Option GoError)) :
    (failed macs res).Sublist macs := by
  induction macs generalizing res with
  | nil => cases res <;> simp [failed]
  | cons m ms ih =>
    cases res with
    | nil => simp [failed]
    | cons r rs =>
      cases r with
      | none => simpa [failed] using (ih rs).cons m
      | some e => simpa [failed] using ih rs

end Loop

/-! ## Session setup -/

section Setup

variable {σ Client : Type}

theorem initSession_of_init_error (a : API) (env : Env σ Client) (w : World σ) (err : GoError)
    (h : (initResult a env w).1 = some err) :
    initSession a env w =
      (.error err,
        (w.called Call.Initialize (initResult a env w).2).log Level.error
          "initSession: unable to Initialize session"
          [("error", err.Error), ("endpoint", a.BaseURL), ("username", a.Username)]) := by
  simp only [initResult, sessionOf] at h
  simp only [initSession, initResult, sessionOf, h]

theorem initSession_of_login_error (a : API) (env : Env σ Client) (w : World σ) (err : GoError)
    (h1 : (initResult a env w).1 = none) (h2 : (loginResult a env w).1.2 = some err) :
    initSession a env w =
      (.error (GoError.wrapf (loginResult a env w).1.1 err),
        ((w.called Call.Initialize (initResult a env w).2).called Call.Login
          (loginResult a env w).2).log Level.error "initSession: unable to login session"
          [("error", err.Error), ("message", (loginResult a env w).1.1),
            ("endpoint", a.BaseURL), ("username", a.Username)]) := by
  simp only [loginResult, initResult, sessionOf] at h1 h2
  simp only [initSession, loginResult, initResult, sessionOf, h1, World.called, h2]

theorem initSession_of_ok (a : API) (env : Env σ Client) (w : World σ)
    (h1 : (initResult a env w).1 = none) (h2 : (loginResult a env w).1.2 = none) :
    initSession a env w =
      (.ok (sessionOf a),
        (w.called Call.Initialize (initResult a env w).2).called Call.Login
          (loginResult a env w).2) := by
  simp only [loginResult, initResult, sessionOf] at h1 h2
  simp only [initSession, loginResult, initResult, sessionOf, h1, World.called, h2]

theorem writeHeader_of_unwritten (rw : ResponseWriter) (code : Nat) (hs : rw.status = none) :
    rw.WriteHeader code = { rw with status := some code } := by
  simp [ResponseWriter.WriteHeader, hs]

theorem block_setup_failure (a : API) (env : Env σ Client) (params : Params)
    (rw : ResponseWriter) (w : World σ)
    (hfail : (initResult a env w).1 ≠ none ∨ (loginResult a env w).1.2 ≠ none ∨
      ∃ e, (namesResult a env w).1 = Except.error e) :
    (block a env params rw w).1 = rw.WriteHeader StatusInternalServerError ∧
      (block a env params rw w).2.calls = w.calls ++ setupCalls a env w := by
  unfold setupCalls
  cases h1 : (initResult a env w).1 with
  | some e1 =>
    simp [block, initSession_of_init_error a env w e1 h1, World.called, World.log]
  | none =>
    cases h2 : (loginResult a env w).1.2 with
    | some e2 =>
      simp [block, initSession_of_login_error a env w e2 h1 h2, World.called, World.log]
    | none =>
      rcases hfail with h | h | ⟨e3, h3⟩
      · exact absurd h1 h
      · exact absurd h2 h
      · simp only [namesResult] at h3
        simp [block, initSession_of_ok a env w h1 h2, World.called, World.log, h3]

theorem unblock_setup_failure (a : API) (env : Env σ Client) (params : Params)
    (rw : ResponseWriter) (w : World σ)
    (hfail : (initResult a env w).1 ≠ none ∨ (loginResult a env w).1.2 ≠ none ∨
      ∃ e, (namesResult a env w).1 = Except.error e) :
    (unblock a env params rw w).1 = rw.WriteHeader StatusInternalServerError ∧
      (unblock a env params rw w).2.calls = w.calls ++ setupCalls a env w := by
  unfold setupCalls
  cases h1 : (initResult a env w).1 with
  | some e1 =>
    simp [unblock, initSession_of_init_error a env w e1 h1, World.called, World.log]
  | none =>
    cases h2 : (loginResult a env w).1.2 with
    | some e2 =>
      simp [unblock, initSession_of_login_error a env w e2 h1 h2, World.called, World.log]
    | none =>
      rcases hfail with h | h | ⟨e3, h3⟩
      · exact absurd h1 h
      · exact absurd h2 h
      · simp only [namesResult] at h3
        simp [unblock, initSession_of_ok a env w h1 h2, World.called, World.log, h3]

theorem setupCalls_not_control (a : API) (env : Env σ Client) (w : World σ) (m : MAC) :
    Call.Block m ∉ setupCalls a env w ∧ Call.Unblock m ∉ setupCalls a env w := by
  unfold setupCalls
  cases (initResult a env w).1.isSome <;> cases (loginResult a env w).1.2.isSome <;> simp

end Setup

/-! ## Claims about the error paths of `block` and `unblock` -/

section ControlErrors

variable {σ Client : Type}

/-- C3: when `Initialize`, `Login` or `GetNames` fails, `block` and `unblock`
answer status 500 with an empty body and the only remote calls they make are
those of the setup up to the failing step: no `Block` or `Unblock` call, no
`Login` after a failed `Initialize`, no `GetNames` after a failed `Initialize`
or `Login`. -/
theorem C3_setup_failure_is_500_without_control_calls (a : API) (env : Env σ Client)
    (params : Params) (rw : ResponseWriter) (w : World σ)
    (hs : rw.status = none) (hb : rw.body = "")
    (hfail : (initResult a env w).1 ≠ none ∨ (loginResult a env w).1.2 ≠ none ∨
      ∃ e, (namesResult a env w).1 = Except.error e) :
    ((block a env params rw w).1.status = some 500 ∧ (block a env params rw w).1.body = "" ∧
        (block a env params rw w).2.calls = w.calls ++ setupCalls a env w) ∧
      ((unblock a env params rw w).1.status = some 500 ∧
        (unblock a env params rw w).1.body = "" ∧
        (unblock a env params rw w).2.calls = w.calls ++ setupCalls a env w) ∧
      (∀ m, Call.Block m ∉ setupCalls a env w ∧ Call.Unblock m ∉ setupCalls a env w) ∧
      ((initResult a env w).1 ≠ none → setupCalls a env w = [Call.Initialize]) ∧
      ((initResult a env w).1 = none → (loginResult a env w).1.2 ≠ none →
        setupCalls a env w = [Call.Initialize, Call.Login]) := by
  obtain ⟨b1, b2⟩ := block_setup_failure a env params rw w hfail
  obtain ⟨u1, u2⟩ := unblock_setup_failure a env params rw w hfail
  have hw : rw.WriteHeader StatusInternalServerError = { rw with status := some 500 } :=
    writeHeader_of_unwritten rw _ hs
  refine ⟨⟨?_, ?_, b2⟩, ⟨?_, ?_, u2⟩, setupCalls_not_control a env w, ?_, ?_⟩
  · rw [b1, hw]
  · rw [b1, hw]; exact hb
  · rw [u1, hw]
  · rw [u1, hw]; exact hb
  · intro h
    cases h1 : (initResult a env w).1 with
    | none => exact absurd h1 h
    | some e => simp [setupCalls, h1]
  · intro h1 h
    cases h2 : (loginResult a env w).1.2 with
    | none => exact absurd h2 h
    | some e => simp [setupCalls, h1, h2]

/-- Witness for C3: the login of the controller fails with the message
`invalid credentials`; `PUT /block/alice-phone` is answered 500 with an empty
body after the calls `Initialize` and `Login`. -/
theorem C3_setup_failure_is_500_without_control_calls_witness :
    (loginResult demoAPI (failingEnv 1) demoWorld).1 =
        ("invalid credentials", some (GoError.ext "login failed")) ∧
      (block demoAPI (failingEnv 1) [("name", "alice-phone")] ResponseWriter.empty
        demoWorld).1.status = some 500 ∧
      (block demoAPI (failingEnv 1) [("name", "alice-phone")] ResponseWriter.empty
        demoWorld).1.body = "" ∧
      (block demoAPI (failingEnv 1) [("name", "alice-phone")] ResponseWriter.empty
        demoWorld).2.calls = [Call.Initialize, Call.Login] :=
  have h := C3_setup_failure_is_500_without_control_calls demoAPI (failingEnv 1)
    [("name", "alice-phone")] ResponseWriter.empty demoWorld rfl rfl
    (Or.inr (Or.inl (by decide)))
  ⟨by decide, h.1.1, h.1.2.1, h.1.2.2.trans (by decide)⟩

end ControlErrors

/-! ## Responses -/

section Responses

variable {σ Client : Type}

theorem Header.get_set_same (h : Header) (key value : String) :
    Header.Get (Header.Set h key value) key = value := by
  simp [Header.Get, Header.Set, List.lookup]

theorem write_of_unwritten (rw : ResponseWriter) (p : String) (hs : rw.status = none) :
    rw.Write p = { rw with status := some 200, body := rw.body ++ p } := by
  simp [ResponseWriter.Write, ResponseWriter.WriteHeader, hs]

theorem marshalMap_blocked_nil (f : MAC → Except GoError String) :
    marshalMap f [("blocked", Slice.nil), ("not_blocked", Slice.nil)] =
      .ok "\x7b\"blocked\":null,\"not_blocked\":null\x7d" := by
  rfl

theorem marshalAll_forall2 {α : Type} (marshal : α → Except GoError String) (xs : List α)
    (parts : List String) (h : marshalAll marshal xs = .ok parts) :
    List.Forall₂ (fun x p => marshal x = .ok p) xs parts := by
  induction xs generalizing parts with
  | nil =>
    simp only [marshalAll, Except.ok.injEq] at h
    subst h
    exact List.Forall₂.nil
  | cons x xs ih =>
    simp only [marshalAll] at h
    cases hx : marshal x with
    | error e => simp [hx] at h
    | ok s0 =>
      cases hxs : marshalAll marshal xs with
      | error e => simp [hx, hxs] at h
      | ok ss =>
        simp only [hx, hxs, Except.ok.injEq] at h
        subst h
        exact List.Forall₂.cons hx (ih ss hxs)

end Responses

/-! ## Claims about the responses of `block` and `list` -/

section ResponseClaims

variable {σ Client : Type}

/-- C5, amended: when session setup and lookup succeed and the name of the
request is absent from the index, `block` makes no `Block` call (its remote
calls are `Initialize`, `Login`, `GetNames`) and answers status 200 with
content type `application/json`; both slices are nil and are encoded as JSON
`null`, so the body is the object with `blocked` and `not_blocked` both `null`,
followed by a newline. -/
theorem C5_absent_name_answers_null_slices (a : API) (env : Env σ Client) (params : Params)
    (rw : ResponseWriter) (w : World σ) (names : NameIndex)
    (hs : rw.status = none) (hb : rw.body = "")
    (h1 : (initResult a env w).1 = none) (h2 : (loginResult a env w).1.2 = none)
    (h3 : (namesResult a env w).1 = Except.ok names)
    (habs : names (Params.ByName params "name") = none) :
    (block a env params rw w).2.calls =
        w.calls ++ [Call.Initialize, Call.Login, Call.GetNames] ∧
      (block a env params rw w).1.status = some 200 ∧
      Header.Get (block a env params rw w).1.header "content-type" = "application/json" ∧
      (block a env params rw w).1.body =
        "\x7b\"blocked\":null,\"not_blocked\":null\x7d\n" := by
  simp only [namesResult] at h3
  have hb2 : (block a env params rw w) =
      ((rw.setHeader "content-type" "application/json").Write
          ("\x7b\"blocked\":null,\"not_blocked\":null\x7d" ++ "\n"),
        ((w.called Call.Initialize (initResult a env w).2).called Call.Login
          (loginResult a env w).2).called Call.GetNames
          (env.GetNames (sessionOf a) (loginResult a env w).2).2) := by
    simp only [block, initSession_of_ok a env w h1 h2, World.called, h3, blockAll, habs,
      marshalMap_blocked_nil, Encode]
  rw [hb2, write_of_unwritten _ _ (by simpa [ResponseWriter.setHeader] using hs)]
  refine ⟨by simp [World.called], rfl, ?_, ?_⟩
  · simp [ResponseWriter.setHeader, Header.get_set_same]
  · simp only [ResponseWriter.setHeader, hb]
    rfl

/-- Witness for C5: `ghost-device` is not in the index of the demo controller. -/
theorem C5_absent_name_answers_null_slices_witness :
    demoNames "ghost-device" = none ∧
      (block demoAPI demoEnv [("name", "ghost-device")] ResponseWriter.empty demoWorld).2.calls =
        [Call.Initialize, Call.Login, Call.GetNames] ∧
      (block demoAPI demoEnv [("name", "ghost-device")] ResponseWriter.empty demoWorld).1.body =
        "\x7b\"blocked\":null,\"not_blocked\":null\x7d\n" :=
  have h := C5_absent_name_answers_null_slices demoAPI demoEnv [("name", "ghost-device")]
    ResponseWriter.empty demoWorld demoNames rfl rfl (by decide) (by decide) rfl (by decide)
  ⟨by decide, h.1, h.2.2.2⟩

/-- C5 as stated fails: for `PUT /block/ghost-device`, a name that is not in
the index, the body is not the object with two empty arrays. -/
theorem C5_counterexample_body_is_not_empty_arrays :
    demoNames "ghost-device" = none ∧
      (ServeHTTP demoAPI demoEnv ResponseWriter.empty (demoRequest "PUT" "/block/ghost-device")
          demoNext demoWorld).map (fun res => res.2.1.body) =
        some "\x7b\"blocked\":null,\"not_blocked\":null\x7d\n" ∧
      (ServeHTTP demoAPI demoEnv ResponseWriter.empty (demoRequest "PUT" "/block/ghost-device")
          demoNext demoWorld).map (fun res => res.2.1.body) ≠
        some "\x7b\"blocked\":[],\"not_blocked\":[]\x7d" ∧
      (ServeHTTP demoAPI demoEnv ResponseWriter.empty (demoRequest "PUT" "/block/ghost-device")
          demoNext demoWorld).map (fun res => res.2.1.body) ≠
        some "\x7b\"blocked\":[],\"not_blocked\":[]\x7d\n" := by
  decide

theorem list_eq (a : API) (env : Env σ Client) (rw : ResponseWriter) (w : World σ) :
    (list a env rw w).1 =
        (match (env.Get a.NATSURL (env.DetailBucket baseSubject) env.ActiveKey w.ext).1 with
        | .error _ => rw.WriteHeader StatusInternalServerError
        | .ok into =>
          match marshalSlice env.marshalClient into with
          | .error _ =>
            (rw.setHeader "content-type" "application/json").WriteHeader
              StatusInternalServerError
          | .ok s => (rw.setHeader "content-type" "application/json").Write (s ++ "\n")) ∧
      (list a env rw w).2.calls =
        w.calls ++ [Call.Get a.NATSURL (env.DetailBucket baseSubject) env.ActiveKey] := by
  cases hg : (env.Get a.NATSURL (env.DetailBucket baseSubject) env.ActiveKey w.ext).1 with
  | error e => simp [list, hg, World.called, World.log]
  | ok into =>
    cases hm : marshalSlice env.marshalClient into with
    | error e => simp [list, hg, hm, Encode, World.called, World.log]
    | ok s => simp [list, hg, hm, Encode, World.called]

/-- C6: `list` makes one remote call, the cache read with the URL of the
configuration, the bucket `DetailBucket(baseSubject)` (`baseSubject` is
`unifi`) and the key `ActiveKey`.  When the read fails the response is status
500 with an empty body.  When it yields a slice of clients whose JSON encoding
is `s`, the response is status 200 with content type `application/json` and the
body `s` followed by a newline; the encoding of a non-nil slice is the
encodings of its records, in order, between brackets.  When the slice cannot be
encoded the response is status 500 with an empty body. -/
theorem C6_list_serves_the_cached_inventory (a : API) (env : Env σ Client)
    (rw : ResponseWriter) (w : World σ) (hs : rw.status = none) (hb : rw.body = "") :
    (list a env rw w).2.calls =
        w.calls ++ [Call.Get a.NATSURL (env.DetailBucket "unifi") env.ActiveKey] ∧
      (∀ err, (env.Get a.NATSURL (env.DetailBucket "unifi") env.ActiveKey w.ext).1 =
          Except.error err →
        (list a env rw w).1.status = some 500 ∧ (list a env rw w).1.body = "") ∧
      (∀ into s, (env.Get a.NATSURL (env.DetailBucket "unifi") env.ActiveKey w.ext).1 =
          Except.ok into → marshalSlice env.marshalClient into = Except.ok s →
        (list a env rw w).1.status = some 200 ∧
          Header.Get (list a env rw w).1.header "content-type" = "application/json" ∧
          (list a env rw w).1.body = s ++ "\n") ∧
      (∀ cs s, marshalSlice env.marshalClient (Slice.mk cs) = Except.ok s →
        ∃ parts, List.Forall₂ (fun c p => env.marshalClient c = Except.ok p) cs parts ∧
          s = "[" ++ ",".intercalate parts ++ "]") ∧
      (∀ into err, (env.Get a.NATSURL (env.DetailBucket "unifi") env.ActiveKey w.ext).1 =
          Except.ok into → marshalSlice env.marshalClient into = Except.error err →
        (list a env rw w).1.status = some 500 ∧ (list a env rw w).1.body = "") := by
  obtain ⟨hl, hc⟩ := list_eq a env rw w
  have hs1 : (rw.setHeader "content-type" "application/json").status = none := by
    simpa [ResponseWriter.setHeader] using hs
  refine ⟨hc, ?_, ?_, ?_, ?_⟩
  · intro err he
    have he1 : (env.Get a.NATSURL (env.DetailBucket baseSubject) env.ActiveKey w.ext).1 =
        Except.error err := he
    rw [hl, he1]
    simp [writeHeader_of_unwritten rw _ hs, hb, StatusInternalServerError]
  · intro into s he hm
    have he1 : (env.Get a.NATSURL (env.DetailBucket baseSubject) env.ActiveKey w.ext).1 =
        Except.ok into := he
    rw [hl, he1]
    simp only [hm, write_of_unwritten _ _ hs1]
    refine ⟨trivial, ?_, ?_⟩
    · simp [ResponseWriter.setHeader, Header.get_set_same]
    · simp [ResponseWriter.setHeader, hb]
  · intro cs s hm
    simp only [marshalSlice] at hm
    cases hp : marshalAll env.marshalClient cs with
    | error e => simp [hp] at hm
    | ok parts =>
      simp only [hp, Except.ok.injEq] at hm
      exact ⟨parts, marshalAll_forall2 _ _ _ hp, hm.symm⟩
  · intro into err he hm
    have he1 : (env.Get a.NATSURL (env.DetailBucket baseSubject) env.ActiveKey w.ext).1 =
        Except.ok into := he
    rw [hl, he1]
    simp only [hm]
    rw [writeHeader_of_unwritten _ _ hs1]
    exact ⟨rfl, by simpa [ResponseWriter.setHeader] using hb⟩

/-- Witness for C6: the cache of the demo environment holds two records, the
cache of the failing environment cannot be read. -/
theorem C6_list_serves_the_cached_inventory_witness :
    ((list demoAPI demoEnv ResponseWriter.empty demoWorld).1.status = some 200 ∧
        Header.Get (list demoAPI demoEnv ResponseWriter.empty demoWorld).1.header
          "content-type" = "application/json" ∧
        (list demoAPI demoEnv ResponseWriter.empty demoWorld).1.body =
          "[\x7b\"mac\":\"01\"\x7d,\x7b\"mac\":\"02\"\x7d]\n") ∧
      ((list demoAPI (failingEnv 0) ResponseWriter.empty demoWorld).1.status = some 500 ∧
        (list demoAPI (failingEnv 0) ResponseWriter.empty demoWorld).1.body = "") :=
  ⟨(C6_list_serves_the_cached_inventory demoAPI demoEnv ResponseWriter.empty demoWorld
      rfl rfl).2.2.1 (Slice.mk ["\x7b\"mac\":\"01\"\x7d", "\x7b\"mac\":\"02\"\x7d"])
      "[\x7b\"mac\":\"01\"\x7d,\x7b\"mac\":\"02\"\x7d]" rfl rfl,
    (C6_list_serves_the_cached_inventory demoAPI (failingEnv 0) ResponseWriter.empty demoWorld
      rfl rfl).2.1 (GoError.ext "cache unreachable") rfl⟩

/-- C7: `list` never touches the controller: its only remote call is the cache
read, and for any two configurations and any two environments (any controller
behaviour, any external state) that encode clients the same way, the same
result of the cache read gives the same response. -/
theorem C7_list_is_independent_of_the_controller {σ₁ σ₂ : Type} (a₁ a₂ : API)
    (env₁ : Env σ₁ Client) (env₂ : Env σ₂ Client) (rw : ResponseWriter)
    (w₁ : World σ₁) (w₂ : World σ₂)
    (hmarshal : env₁.marshalClient = env₂.marshalClient)
    (hget : (env₁.Get a₁.NATSURL (env₁.DetailBucket baseSubject) env₁.ActiveKey w₁.ext).1 =
      (env₂.Get a₂.NATSURL (env₂.DetailBucket baseSubject) env₂.ActiveKey w₂.ext).1) :
    (list a₁ env₁ rw w₁).1 = (list a₂ env₂ rw w₂).1 ∧
      (list a₁ env₁ rw w₁).2.calls =
        w₁.calls ++ [Call.Get a₁.NATSURL (env₁.DetailBucket baseSubject) env₁.ActiveKey] ∧
      (list a₂ env₂ rw w₂).2.calls =
        w₂.calls ++ [Call.Get a₂.NATSURL (env₂.DetailBucket baseSubject) env₂.ActiveKey] := by
  obtain ⟨hl1, hc1⟩ := list_eq a₁ env₁ rw w₁
  obtain ⟨hl2, hc2⟩ := list_eq a₂ env₂ rw w₂
  refine ⟨?_, hc1, hc2⟩
  rw [hl1, hl2, hget, hmarshal]

/-- Witness for C7: the demo controller against a controller whose login
always fails, with the same cache. -/
theorem C7_list_is_independent_of_the_controller_witness :
    (loginResult demoAPI loginFailsEnv demoWorld).1.2 ≠ none ∧
      (list demoAPI demoEnv ResponseWriter.empty demoWorld).1 =
        (list otherAPI loginFailsEnv ResponseWriter.empty demoWorld).1 :=
  ⟨by decide,
    (C7_list_is_independent_of_the_controller demoAPI otherAPI demoEnv loginFailsEnv
      ResponseWriter.empty demoWorld demoWorld rfl rfl).1⟩

end ResponseClaims

/-! ## Claims about the bulk control of `block` and `unblock` -/

section Bulk

variable {σ Client : Type}

theorem block_resolved (a : API) (env : Env σ Client) (params : Params) (rw : ResponseWriter)
    (w : World σ) (names : NameIndex) (macs : List MAC)
    (h1 : (initResult a env w).1 = none) (h2 : (loginResult a env w).1.2 = none)
    (h3 : (namesResult a env w).1 = Except.ok names)
    (h4 : names (Params.ByName params "name") = some macs) :
    (block a env params rw w).2.calls =
        w.calls ++ [Call.Initialize, Call.Login, Call.GetNames] ++ macs.map Call.Block ∧
      (block a env params rw w).1 =
        match marshalMap env.marshalMAC
          [("blocked", Slice.collect (succeeded macs
              (callResults (env.Block (sessionOf a)) macs (namesResult a env w).2))),
            ("not_blocked", Slice.collect (failed macs
              (callResults (env.Block (sessionOf a)) macs (namesResult a env w).2)))] with
        | .ok s => (rw.setHeader "content-type" "application/json").Write (s ++ "\n")
        | .error _ =>
          (rw.setHeader "content-type" "application/json").WriteHeader
            StatusInternalServerError := by
  obtain ⟨f1, f2, f3⟩ := fold_spec (blockStep_spec env (sessionOf a)) macs
    { w := ((w.called Call.Initialize (initResult a env w).2).called Call.Login
        (loginResult a env w).2).called Call.GetNames (namesResult a env w).2
      done := Slice.nil, notDone := Slice.nil }
  simp only [namesResult] at h3 f1 f2 f3
  simp only [block, initSession_of_ok a env w h1 h2, World.called, h3, blockAll, h4, namesResult]
  simp only [World.called, List.append_assoc, List.cons_append, List.nil_append] at f1 f2 f3
  simp only [List.append_assoc, List.cons_append, List.nil_append]
  rw [f2, f3]
  cases hm : marshalMap env.marshalMAC
      [("blocked", Slice.pushAll Slice.nil (succeeded macs
          (callResults (env.Block (sessionOf a)) macs
            (env.GetNames (sessionOf a) (loginResult a env w).2).2))),
        ("not_blocked", Slice.pushAll Slice.nil (failed macs
          (callResults (env.Block (sessionOf a)) macs
            (env.GetNames (sessionOf a) (loginResult a env w).2).2)))] with
  | error e => simp [Encode, Slice.collect, hm, World.log, f1]
  | ok body => simp [Encode, Slice.collect, hm, f1]

theorem unblock_resolved (a : API) (env : Env σ Client) (params : Params)
    (rw : ResponseWriter) (w : World σ) (names : NameIndex) (macs : List MAC)
    (h1 : (initResult a env w).1 = none) (h2 : (loginResult a env w).1.2 = none)
    (h3 : (namesResult a env w).1 = Except.ok names)
    (h4 : names (Params.ByName params "name") = some macs) :
    (unblock a env params rw w).2.calls =
        w.calls ++ [Call.Initialize, Call.Login, Call.GetNames] ++ macs.map Call.Unblock ∧
      (unblock a env params rw w).1 =
        match marshalMap env.marshalMAC
          [("unblocked", Slice.collect (succeeded macs
              (callResults (env.Unblock (sessionOf a)) macs (namesResult a env w).2))),
            ("not_unblocked", Slice.collect (failed macs
              (callResults (env.Unblock (sessionOf a)) macs (namesResult a env w).2)))] with
        | .ok s => (rw.setHeader "content-type" "application/json").Write (s ++ "\n")
        | .error _ =>
          (rw.setHeader "content-type" "application/json").WriteHeader
            StatusInternalServerError := by
  obtain ⟨f1, f2, f3⟩ := fold_spec (unblockStep_spec env (sessionOf a)) macs
    { w := ((w.called Call.Initialize (initResult a env w).2).called Call.Login
        (loginResult a env w).2).called Call.GetNames (namesResult a env w).2
      done := Slice.nil, notDone := Slice.nil }
  simp only [namesResult] at h3 f1 f2 f3
  simp only [unblock, initSession_of_ok a env w h1 h2, World.called, h3, unblockAll, h4,
    namesResult]
  simp only [World.called, List.append_assoc, List.cons_append, List.nil_append] at f1 f2 f3
  simp only [List.append_assoc, List.cons_append, List.nil_append]
  rw [f2, f3]
  cases hm : marshalMap env.marshalMAC
      [("unblocked", Slice.pushAll Slice.nil (succeeded macs
          (callResults (env.Unblock (sessionOf a)) macs
            (env.GetNames (sessionOf a) (loginResult a env w).2).2))),
        ("not_unblocked", Slice.pushAll Slice.nil (failed macs
          (callResults (env.Unblock (sessionOf a)) macs
            (env.GetNames (sessionOf a) (loginResult a env w).2).2)))] with
  | error e => simp [Encode, Slice.collect, hm, World.log, f1]
  | ok body => simp [Encode, Slice.collect, hm, f1]

theorem encoded_response (rw : ResponseWriter) (m : Except GoError String) (body : String)
    (hs : rw.status = none) (hb : rw.body = "") (hm : m = Except.ok body) :
    (match m with
      | .ok s => (rw.setHeader "content-type" "application/json").Write (s ++ "\n")
      | .error _ =>
        (rw.setHeader "content-type" "application/json").WriteHeader
          StatusInternalServerError).status = some 200 ∧
      Header.Get (match m with
        | .ok s => (rw.setHeader "content-type" "application/json").Write (s ++ "\n")
        | .error _ =>
          (rw.setHeader "content-type" "application/json").WriteHeader
            StatusInternalServerError).header "content-type" = "application/json" ∧
      (match m with
        | .ok s => (rw.setHeader "content-type" "application/json").Write (s ++ "\n")
        | .error _ =>
          (rw.setHeader "content-type" "application/json").WriteHeader
            StatusInternalServerError).body = body ++ "\n" := by
  subst hm
  have hs1 : (rw.setHeader "content-type" "application/json").status = none := by
    simpa [ResponseWriter.setHeader] using hs
  simp only [write_of_unwritten _ _ hs1]
  refine ⟨trivial, ?_, ?_⟩
  · simp [ResponseWriter.setHeader, Header.get_set_same]
  · simp [ResponseWriter.setHeader, hb]

theorem classified (macs : List MAC) (res : List (Option GoError))
    (hlen : res.length = macs.length) :
    (Slice.collect (succeeded macs res)).toList = succeeded macs res ∧
      (Slice.collect (failed macs res)).toList = failed macs res ∧
      (succeeded macs res).Sublist macs ∧ (failed macs res).Sublist macs ∧
      ((Slice.collect (succeeded macs res)).toList ++
        (Slice.collect (failed macs res)).toList).Perm macs ∧
      (Slice.collect (succeeded macs res)).toList.length +
        (Slice.collect (failed macs res)).toList.length = macs.length := by
  have hp := succeeded_failed_perm macs res hlen
  refine ⟨Slice.toList_collect _, Slice.toList_collect _, succeeded_sublist _ _,
    failed_sublist _ _, ?_, ?_⟩
  · rw [Slice.toList_collect, Slice.toList_collect]; exact hp
  · rw [Slice.toList_collect, Slice.toList_collect, ← List.length_append]; exact hp.length_eq

theorem exactly_one_of_perm (macs done notDone : List MAC)
    (hp : (done ++ notDone).Perm macs) :
    (∀ m ∈ macs, m ∈ done ∨ m ∈ notDone) ∧ (∀ m, m ∈ done ∨ m ∈ notDone → m ∈ macs) ∧
      (macs.Nodup → ∀ m, ¬ (m ∈ done ∧ m ∈ notDone)) := by
  refine ⟨fun m hm => List.mem_append.mp (hp.mem_iff.mpr hm),
    fun m hm => hp.mem_iff.mp (List.mem_append.mpr hm), ?_⟩
  intro hnd m hm
  have hnd2 : (done ++ notDone).Nodup := hp.nodup_iff.mpr hnd
  exact (List.nodup_append.mp hnd2).2.2 hm.1 hm.2

/-- C2: for a request whose name resolves to `macs` (setup and lookup
succeeding), the handler `block` (and `unblock`) calls the primitive once per
element of `macs`, in the order of `macs` and right after the setup calls,
whatever the earlier calls returned; it answers status 200 with the JSON
encoding of the two slices, where the success slice is the in-order subsequence
of the addresses whose call returned no error and the failure slice the
in-order subsequence of those whose call returned an error; the two together
hold exactly the occurrences of `macs`, and their lengths add up to the length
of `macs`. -/
theorem C2_one_call_per_address_in_order (a : API) (env : Env σ Client) (params : Params)
    (rw : ResponseWriter) (w : World σ) (names : NameIndex) (macs : List MAC)
    (hs : rw.status = none) (hb : rw.body = "")
    (h1 : (initResult a env w).1 = none) (h2 : (loginResult a env w).1.2 = none)
    (h3 : (namesResult a env w).1 = Except.ok names)
    (h4 : names (Params.ByName params "name") = some macs) :
    ((block a env params rw w).2.calls =
          w.calls ++ [Call.Initialize, Call.Login, Call.GetNames] ++ macs.map Call.Block ∧
        (blockResults a env w macs).length = macs.length ∧
        (∀ body, marshalMap env.marshalMAC
            [("blocked", Slice.collect (succeeded macs (blockResults a env w macs))),
              ("not_blocked", Slice.collect (failed macs (blockResults a env w macs)))] =
            Except.ok body →
          (block a env params rw w).1.status = some 200 ∧
            Header.Get (block a env params rw w).1.header "content-type" =
              "application/json" ∧
            (block a env params rw w).1.body = body ++ "\n") ∧
        (Slice.collect (succeeded macs (blockResults a env w macs))).toList =
          succeeded macs (blockResults a env w macs) ∧
        (Slice.collect (failed macs (blockResults a env w macs))).toList =
          failed macs (blockResults a env w macs) ∧
        (succeeded macs (blockResults a env w macs)).Sublist macs ∧
        (failed macs (blockResults a env w macs)).Sublist macs ∧
        ((Slice.collect (succeeded macs (blockResults a env w macs))).toList ++
          (Slice.collect (failed macs (blockResults a env w macs))).toList).Perm macs ∧
        (Slice.collect (succeeded macs (blockResults a env w macs))).toList.length +
          (Slice.collect (failed macs (blockResults a env w macs))).toList.length =
            macs.length) ∧
      ((unblock a env params rw w).2.calls =
          w.calls ++ [Call.Initialize, Call.Login, Call.GetNames] ++ macs.map Call.Unblock ∧
        (unblockResults a env w macs).length = macs.length ∧
        (∀ body, marshalMap env.marshalMAC
            [("unblocked", Slice.collect (succeeded macs (unblockResults a env w macs))),
              ("not_unblocked", Slice.collect (failed macs (unblockResults a env w macs)))] =
            Except.ok body →
          (unblock a env params rw w).1.status = some 200 ∧
            Header.Get (unblock a env params rw w).1.header "content-type" =
              "application/json" ∧
            (unblock a env params rw w).1.body = body ++ "\n") ∧
        (Slice.collect (succeeded macs (unblockResults a env w macs))).toList =
          succeeded macs (unblockResults a env w macs) ∧
        (Slice.collect (failed macs (unblockResults a env w macs))).toList =
          failed macs (unblockResults a env w macs) ∧
        (succeeded macs (unblockResults a env w macs)).Sublist macs ∧
        (failed macs (unblockResults a env w macs)).Sublist macs ∧
        ((Slice.collect (succeeded macs (unblockResults a env w macs))).toList ++
          (Slice.collect (failed macs (unblockResults a env w macs))).toList).Perm macs ∧
        (Slice.collect (succeeded macs (unblockResults a env w macs))).toList.length +
          (Slice.collect (failed macs (unblockResults a env w macs))).toList.length =
            macs.length) := by
  obtain ⟨bc, br⟩ := block_resolved a env params rw w names macs h1 h2 h3 h4
  obtain ⟨uc, ur⟩ := unblock_resolved a env params rw w names macs h1 h2 h3 h4
  have hbl : (blockResults a env w macs).length = macs.length := callResults_length _ _ _
  have hul : (unblockResults a env w macs).length = macs.length := callResults_length _ _ _
  obtain ⟨b1, b2, b3, b4, b5, b6⟩ := classified macs (blockResults a env w macs) hbl
  obtain ⟨u1, u2, u3, u4, u5, u6⟩ := classified macs (unblockResults a env w macs) hul
  refine ⟨⟨bc, hbl, ?_, b1, b2, b3, b4, b5, b6⟩, ⟨uc, hul, ?_, u1, u2, u3, u4, u5, u6⟩⟩
  · intro body hm
    rw [br]
    exact encoded_response rw _ body hs hb hm
  · intro body hm
    rw [ur]
    exact encoded_response rw _ body hs hb hm

/-- Witness for C2: `PUT /block/alice-phone` on the demo controller, which
accepts the first address and rejects the second. -/
theorem C2_one_call_per_address_in_order_witness :
    (block demoAPI demoEnv [("name", "alice-phone")] ResponseWriter.empty demoWorld).2.calls =
        [Call.Initialize, Call.Login, Call.GetNames, Call.Block "AA:BB:CC:00:00:01",
          Call.Block "AA:BB:CC:00:00:02"] ∧
      (block demoAPI demoEnv [("name", "alice-phone")] ResponseWriter.empty demoWorld).1.status =
        some 200 ∧
      (block demoAPI demoEnv [("name", "alice-phone")] ResponseWriter.empty demoWorld).1.body =
        "\x7b\"blocked\":[\"AA:BB:CC:00:00:01\"],\"not_blocked\":[\"AA:BB:CC:00:00:02\"]\x7d\n" :=
  have h := C2_one_call_per_address_in_order demoAPI demoEnv [("name", "alice-phone")]
    ResponseWriter.empty demoWorld demoNames ["AA:BB:CC:00:00:01", "AA:BB:CC:00:00:02"]
    rfl rfl (by decide) (by decide) rfl (by decide)
  have hr := h.1.2.2.1
    "\x7b\"blocked\":[\"AA:BB:CC:00:00:01\"],\"not_blocked\":[\"AA:BB:CC:00:00:02\"]\x7d"
    rfl
  ⟨h.1.1, hr.1, hr.2.2.trans (by decide)⟩

/-- C1: for a request whose name is present in the index and resolves to
`macs`, the two slices `block` (and `unblock`) encodes in its response are such
that every address of `macs` is in at least one of them and neither holds an
address outside `macs`; when `macs` lists no address twice, as the ordered set
of a NameIndex does, no address is in both, so each address is in exactly one;
for any `macs` the two slices together hold exactly the occurrences of `macs`. -/
theorem C1_each_address_in_exactly_one_slice (a : API) (env : Env σ Client) (params : Params)
    (rw : ResponseWriter) (w : World σ) (names : NameIndex) (macs : List MAC)
    (hs : rw.status = none) (hb : rw.body = "")
    (h1 : (initResult a env w).1 = none) (h2 : (loginResult a env w).1.2 = none)
    (h3 : (namesResult a env w).1 = Except.ok names)
    (h4 : names (Params.ByName params "name") = some macs) :
    ((∀ body, marshalMap env.marshalMAC
            [("blocked", Slice.collect (succeeded macs (blockResults a env w macs))),
              ("not_blocked", Slice.collect (failed macs (blockResults a env w macs)))] =
            Except.ok body →
          (block a env params rw w).1.body = body ++ "\n") ∧
        (∀ m ∈ macs, m ∈ (Slice.collect (succeeded macs (blockResults a env w macs))).toList ∨
          m ∈ (Slice.collect (failed macs (blockResults a env w macs))).toList) ∧
        (∀ m, m ∈ (Slice.collect (succeeded macs (blockResults a env w macs))).toList ∨
            m ∈ (Slice.collect (failed macs (blockResults a env w macs))).toList →
          m ∈ macs) ∧
        (macs.Nodup → ∀ m,
          ¬ (m ∈ (Slice.collect (succeeded macs (blockResults a env w macs))).toList ∧
            m ∈ (Slice.collect (failed macs (blockResults a env w macs))).toList)) ∧
        ((Slice.collect (succeeded macs (blockResults a env w macs))).toList ++
          (Slice.collect (failed macs (blockResults a env w macs))).toList).Perm macs) ∧
      ((∀ body, marshalMap env.marshalMAC
            [("unblocked", Slice.collect (succeeded macs (unblockResults a env w macs))),
              ("not_unblocked", Slice.collect (failed macs (unblockResults a env w macs)))] =
            Except.ok body →
          (unblock a env params rw w).1.body = body ++ "\n") ∧
        (∀ m ∈ macs,
          m ∈ (Slice.collect (succeeded macs (unblockResults a env w macs))).toList ∨
            m ∈ (Slice.collect (failed macs (unblockResults a env w macs))).toList) ∧
        (∀ m, m ∈ (Slice.collect (succeeded macs (unblockResults a env w macs))).toList ∨
            m ∈ (Slice.collect (failed macs (unblockResults a env w macs))).toList →
          m ∈ macs) ∧
        (macs.Nodup → ∀ m,
          ¬ (m ∈ (Slice.collect (succeeded macs (unblockResults a env w macs))).toList ∧
            m ∈ (Slice.collect (failed macs (unblockResults a env w macs))).toList)) ∧
        ((Slice.collect (succeeded macs (unblockResults a env w macs))).toList ++
          (Slice.collect (failed macs (unblockResults a env w macs))).toList).Perm macs) := by
  obtain ⟨_, br⟩ := block_resolved a env params rw w names macs h1 h2 h3 h4
  obtain ⟨_, ur⟩ := unblock_resolved a env params rw w names macs h1 h2 h3 h4
  have hbp := (classified macs (blockResults a env w macs) (callResults_length _ _ _)).2.2.2.2.1
  have hup := (classified macs (unblockResults a env w macs) (callResults_length _ _ _)).2.2.2.2.1
  obtain ⟨b1, b2, b3⟩ := exactly_one_of_perm macs _ _ hbp
  obtain ⟨u1, u2, u3⟩ := exactly_one_of_perm macs _ _ hup
  refine ⟨⟨?_, b1, b2, b3, hbp⟩, ⟨?_, u1, u2, u3, hup⟩⟩
  · intro body hm
    rw [br]
    exact (encoded_response rw _ body hs hb hm).2.2
  · intro body hm
    rw [ur]
    exact (encoded_response rw _ body hs hb hm).2.2

/-- Witness for C1: `alice-phone` resolves to two distinct addresses; the
first is in the success slice only, the second in the failure slice only. -/
theorem C1_each_address_in_exactly_one_slice_witness :
    ["AA:BB:CC:00:00:01", "AA:BB:CC:00:00:02"].Nodup ∧
      (Slice.collect (succeeded ["AA:BB:CC:00:00:01", "AA:BB:CC:00:00:02"]
        (blockResults demoAPI demoEnv demoWorld
          ["AA:BB:CC:00:00:01", "AA:BB:CC:00:00:02"]))).toList = ["AA:BB:CC:00:00:01"] ∧
      (Slice.collect (failed ["AA:BB:CC:00:00:01", "AA:BB:CC:00:00:02"]
        (blockResults demoAPI demoEnv demoWorld
          ["AA:BB:CC:00:00:01", "AA:BB:CC:00:00:02"]))).toList = ["AA:BB:CC:00:00:02"] ∧
      ∀ m, ¬ (m ∈ (Slice.collect (succeeded ["AA:BB:CC:00:00:01", "AA:BB:CC:00:00:02"]
          (blockResults demoAPI demoEnv demoWorld
            ["AA:BB:CC:00:00:01", "AA:BB:CC:00:00:02"]))).toList ∧
        m ∈ (Slice.collect (failed ["AA:BB:CC:00:00:01", "AA:BB:CC:00:00:02"]
          (blockResults demoAPI demoEnv demoWorld
            ["AA:BB:CC:00:00:01", "AA:BB:CC:00:00:02"]))).toList) :=
  have h := C1_each_address_in_exactly_one_slice demoAPI demoEnv [("name", "alice-phone")]
    ResponseWriter.empty demoWorld demoNames ["AA:BB:CC:00:00:01", "AA:BB:CC:00:00:02"]
    rfl rfl (by decide) (by decide) rfl (by decide)
  ⟨by decide, by decide, by decide, h.1.2.2.2.1 (by decide)⟩

end Bulk

/-! ## Claims about `initSession` -/

section Secrets

variable {σ₁ σ₂ Client₁ Client₂ : Type}

/-- C8: `initSession` does not put the password into logs or error text: two
configurations with the same endpoint and user name (the passwords may differ)
whose `Initialize` and `Login` calls return the same error and the same
controller message emit the same log records and return errors with the same
text; each record it emits carries only fields named `error`, `message`,
`endpoint` and `username`. -/
theorem C8_password_reaches_neither_logs_nor_error_text (a₁ a₂ : API)
    (env₁ : Env σ₁ Client₁) (env₂ : Env σ₂ Client₂) (w₁ : World σ₁) (w₂ : World σ₂)
    (hurl : a₁.BaseURL = a₂.BaseURL) (huser : a₁.Username = a₂.Username)
    (hlogs : w₁.logs = w₂.logs)
    (hinit : (initResult a₁ env₁ w₁).1 = (initResult a₂ env₂ w₂).1)
    (hlogin : (loginResult a₁ env₁ w₁).1 = (loginResult a₂ env₂ w₂).1) :
    (initSession a₁ env₁ w₁).2.logs = (initSession a₂ env₂ w₂).2.logs ∧
      errorText (initSession a₁ env₁ w₁).1 = errorText (initSession a₂ env₂ w₂).1 ∧
      ∃ emitted : List LogRecord, (initSession a₁ env₁ w₁).2.logs = w₁.logs ++ emitted ∧
        ∀ rec ∈ emitted, ∀ kv ∈ rec.fields,
          kv.1 ∈ ["error", "message", "endpoint", "username"] := by
  cases h1 : (initResult a₁ env₁ w₁).1 with
  | some e1 =>
    have h1b : (initResult a₂ env₂ w₂).1 = some e1 := by rw [← hinit, h1]
    rw [initSession_of_init_error a₁ env₁ w₁ e1 h1, initSession_of_init_error a₂ env₂ w₂ e1 h1b]
    refine ⟨by simp [World.called, World.log, hlogs, hurl, huser], rfl, ?_⟩
    refine ⟨_, rfl, ?_⟩
    simp
    rintro k v (⟨rfl, -⟩ | ⟨rfl, -⟩ | ⟨rfl, -⟩) <;> simp
  | none =>
    have h1b : (initResult a₂ env₂ w₂).1 = none := by rw [← hinit, h1]
    cases h2 : (loginResult a₁ env₁ w₁).1.2 with
    | some e2 =>
      have h2b : (loginResult a₂ env₂ w₂).1.2 = some e2 := by rw [← hlogin, h2]
      rw [initSession_of_login_error a₁ env₁ w₁ e2 h1 h2,
        initSession_of_login_error a₂ env₂ w₂ e2 h1b h2b]
      refine ⟨by simp [World.called, World.log, hlogs, hurl, huser, hlogin],
        by simp [errorText, hlogin], ?_⟩
      refine ⟨_, rfl, ?_⟩
      simp
      rintro k v (⟨rfl, -⟩ | ⟨rfl, -⟩ | ⟨rfl, -⟩ | ⟨rfl, -⟩) <;> simp
    | none =>
      have h2b : (loginResult a₂ env₂ w₂).1.2 = none := by rw [← hlogin, h2]
      rw [initSession_of_ok a₁ env₁ w₁ h1 h2, initSession_of_ok a₂ env₂ w₂ h1b h2b]
      refine ⟨by simp [World.called, hlogs], rfl, ?_⟩
      exact ⟨[], by simp [World.called], by simp⟩

/-- Witness for C8: two configurations that differ in the password only,
against a controller whose login fails. -/
theorem C8_password_reaches_neither_logs_nor_error_text_witness :
    (initSession demoAPI loginFailsEnv demoWorld).2.logs =
        (initSession demoAPIOtherPassword loginFailsEnv demoWorld).2.logs ∧
      errorText (initSession demoAPI loginFailsEnv demoWorld).1 =
        some "invalid credentials: login failed" :=
  have h := C8_password_reaches_neither_logs_nor_error_text demoAPI demoAPIOtherPassword
    loginFailsEnv loginFailsEnv demoWorld demoWorld rfl rfl rfl (by decide) (by decide)
  ⟨h.1, by decide⟩

end Secrets

/-! ## Provisioning -/

section Provisioning

theorem unmarshalLine_ok_iff (a : API) (ln : Line) :
    (unmarshalLine a ln).2 = none ↔ WellFormedLine ln := by
  obtain ⟨val, args⟩ := ln
  unfold unmarshalLine WellFormedLine
  by_cases h1 : val = "base_url"
  · subst h1
    rcases args with _ | ⟨x, _ | ⟨y, t⟩⟩ <;> simp [AllArgs]
  · by_cases h2 : val = "nats_url"
    · subst h2
      rcases args with _ | ⟨x, _ | ⟨y, t⟩⟩ <;> simp [AllArgs]
    · by_cases h3 : val = "username"
      · subst h3
        rcases args with _ | ⟨x, _ | ⟨y, t⟩⟩ <;> simp [AllArgs]
      · by_cases h4 : val = "password"
        · subst h4
          rcases args with _ | ⟨x, _ | ⟨y, t⟩⟩ <;> simp [AllArgs]
        · simp [h1, h2, h3, h4]

theorem unmarshalBlock_ok_iff (a : API) (blk : List Line) :
    (unmarshalBlock a blk).2 = none ↔ ∀ ln ∈ blk, WellFormedLine ln := by
  induction blk generalizing a with
  | nil => simp [unmarshalBlock]
  | cons ln rest ih =>
    unfold unmarshalBlock
    cases h : (unmarshalLine a ln).2 with
    | some err =>
      have hn : ¬ WellFormedLine ln := fun hw => by
        rw [(unmarshalLine_ok_iff a ln).mpr hw] at h
        exact Option.noConfusion h
      simp [hn]
    | none =>
      have hw : WellFormedLine ln := (unmarshalLine_ok_iff a ln).mp h
      simp [ih, hw]

theorem UnmarshalCaddyfile_ok_iff (a : API) (d : Dispenser) :
    (UnmarshalCaddyfile a d).2 = none ↔ ∀ blk ∈ d, ∀ ln ∈ blk, WellFormedLine ln := by
  induction d generalizing a with
  | nil => simp [UnmarshalCaddyfile]
  | cons blk rest ih =>
    unfold UnmarshalCaddyfile
    cases h : (unmarshalBlock a blk).2 with
    | some err =>
      have hn : ¬ ∀ ln ∈ blk, WellFormedLine ln := fun hw => by
        rw [(unmarshalBlock_ok_iff a blk).mpr hw] at h
        exact Option.noConfusion h
      simp [hn]
    | none =>
      have hw : ∀ ln ∈ blk, WellFormedLine ln := (unmarshalBlock_ok_iff a blk).mp h
      simp only [ih, List.mem_cons, forall_eq_or_imp]
      exact ⟨fun hh => ⟨hw, hh⟩, fun hh => hh.2⟩

/-- A line leaves the fields of the other directives as they are. -/
theorem unmarshalLine_keeps (a : API) (ln : Line) :
    (ln.val ≠ "base_url" → (unmarshalLine a ln).1.BaseURL = a.BaseURL) ∧
      (ln.val ≠ "nats_url" → (unmarshalLine a ln).1.NATSURL = a.NATSURL) ∧
      (ln.val ≠ "username" → (unmarshalLine a ln).1.Username = a.Username) ∧
      (ln.val ≠ "password" → (unmarshalLine a ln).1.Password = a.Password) := by
  unfold unmarshalLine
  by_cases h1 : ln.val = "base_url"
  · simp [h1]
  · by_cases h2 : ln.val = "nats_url"
    · simp [h2]
    · by_cases h3 : ln.val = "username"
      · simp [h3]
      · by_cases h4 : ln.val = "password"
        · simp [h4]
        · simp [h1, h2, h3, h4]

theorem unmarshalBlock_keeps (a : API) (blk : List Line) :
    ((∀ ln ∈ blk, ln.val ≠ "base_url") → (unmarshalBlock a blk).1.BaseURL = a.BaseURL) ∧
      ((∀ ln ∈ blk, ln.val ≠ "nats_url") → (unmarshalBlock a blk).1.NATSURL = a.NATSURL) ∧
      ((∀ ln ∈ blk, ln.val ≠ "username") → (unmarshalBlock a blk).1.Username = a.Username) ∧
      ((∀ ln ∈ blk, ln.val ≠ "password") → (unmarshalBlock a blk).1.Password = a.Password) := by
  induction blk generalizing a with
  | nil => simp [unmarshalBlock]
  | cons ln rest ih =>
    obtain ⟨k1, k2, k3, k4⟩ := unmarshalLine_keeps a ln
    obtain ⟨i1, i2, i3, i4⟩ := ih (unmarshalLine a ln).1
    unfold unmarshalBlock
    cases h : (unmarshalLine a ln).2 with
    | some err =>
      simp only [List.mem_cons, forall_eq_or_imp]
      exact ⟨fun hh => k1 hh.1, fun hh => k2 hh.1, fun hh => k3 hh.1, fun hh => k4 hh.1⟩
    | none =>
      simp only [List.mem_cons, forall_eq_or_imp]
      exact ⟨fun hh => (i1 hh.2).trans (k1 hh.1), fun hh => (i2 hh.2).trans (k2 hh.1),
        fun hh => (i3 hh.2).trans (k3 hh.1), fun hh => (i4 hh.2).trans (k4 hh.1)⟩

theorem UnmarshalCaddyfile_keeps (a : API) (d : Dispenser) :
    (¬ Given d "base_url" → (UnmarshalCaddyfile a d).1.BaseURL = a.BaseURL) ∧
      (¬ Given d "nats_url" → (UnmarshalCaddyfile a d).1.NATSURL = a.NATSURL) ∧
      (¬ Given d "username" → (UnmarshalCaddyfile a d).1.Username = a.Username) ∧
      (¬ Given d "password" → (UnmarshalCaddyfile a d).1.Password = a.Password) := by
  induction d generalizing a with
  | nil => simp [UnmarshalCaddyfile]
  | cons blk rest ih =>
    obtain ⟨k1, k2, k3, k4⟩ := unmarshalBlock_keeps a blk
    obtain ⟨i1, i2, i3, i4⟩ := ih (unmarshalBlock a blk).1
    have split : ∀ key, ¬ Given (blk :: rest) key →
        (∀ ln ∈ blk, ln.val ≠ key) ∧ ¬ Given rest key := by
      intro key hg
      refine ⟨fun ln hln hk => hg ⟨blk, List.mem_cons_self _ _, ln, hln, hk⟩, ?_⟩
      rintro ⟨b, hb, ln, hln, hk⟩
      exact hg ⟨b, List.mem_cons_of_mem _ hb, ln, hln, hk⟩
    unfold UnmarshalCaddyfile
    cases h : (unmarshalBlock a blk).2 with
    | some err =>
      exact ⟨fun hh => k1 (split _ hh).1, fun hh => k2 (split _ hh).1,
        fun hh => k3 (split _ hh).1, fun hh => k4 (split _ hh).1⟩
    | none =>
      exact ⟨fun hh => (i1 (split _ hh).2).trans (k1 (split _ hh).1),
        fun hh => (i2 (split _ hh).2).trans (k2 (split _ hh).1),
        fun hh => (i3 (split _ hh).2).trans (k3 (split _ hh).1),
        fun hh => (i4 (split _ hh).2).trans (k4 (split _ hh).1)⟩

theorem provisionSequence_eq (d : Dispenser) (ctx : Context) :
    provisionSequence d ctx =
      match (UnmarshalCaddyfile API.zero d).2 with
      | some err => .error err
      | none => .ok (Provision (UnmarshalCaddyfile API.zero d).1 ctx).1 := by
  unfold provisionSequence parseCaddyfile
  cases (UnmarshalCaddyfile API.zero d).2 <;> simp [Provision, Validate]

/-- C9, amended: the provisioning sequence does not check that a field is
given.  It succeeds exactly when every line of the configuration block is one
of the directives `base_url`, `nats_url`, `username`, `password` followed by
exactly one argument, whichever of the four are present; the module it yields
has its logger set and every field that is not given is the empty string. -/
theorem C9_provisioning_accepts_missing_fields (d : Dispenser) (ctx : Context) :
    ((∃ a, provisionSequence d ctx = Except.ok a) ↔
        ∀ blk ∈ d, ∀ ln ∈ blk, WellFormedLine ln) ∧
      ∀ a, provisionSequence d ctx = Except.ok a →
        a.logger = some ctx.Logger ∧
          (¬ Given d "base_url" → a.BaseURL = "") ∧
          (¬ Given d "nats_url" → a.NATSURL = "") ∧
          (¬ Given d "username" → a.Username = "") ∧
          (¬ Given d "password" → a.Password = "") := by
  rw [provisionSequence_eq]
  obtain ⟨k1, k2, k3, k4⟩ := UnmarshalCaddyfile_keeps API.zero d
  cases h : (UnmarshalCaddyfile API.zero d).2 with
  | some err =>
    have hn : ¬ ∀ blk ∈ d, ∀ ln ∈ blk, WellFormedLine ln := fun hw => by
      rw [(UnmarshalCaddyfile_ok_iff API.zero d).mpr hw] at h
      exact Option.noConfusion h
    refine ⟨⟨fun ⟨a, ha⟩ => Except.noConfusion ha, fun hw => absurd hw hn⟩, ?_⟩
    intro a ha
    exact Except.noConfusion ha
  | none =>
    have hw := (UnmarshalCaddyfile_ok_iff API.zero d).mp h
    refine ⟨⟨fun _ => hw, fun _ => ⟨_, rfl⟩⟩, ?_⟩
    intro a ha
    simp only [Except.ok.injEq] at ha
    subst ha
    exact ⟨rfl, fun hh => k1 hh, fun hh => k2 hh, fun hh => k3 hh, fun hh => k4 hh⟩

/-- Witness for C9: a block that gives `base_url` only is provisioned, and
the password of the module is empty. -/
theorem C9_provisioning_accepts_missing_fields_witness :
    ∃ a, provisionSequence [[⟨"base_url", ["https://controller:8443"]⟩]] ⟨⟨"unifi_api"⟩⟩ =
        Except.ok a ∧ a.BaseURL = "https://controller:8443" ∧ a.Password = "" :=
  ⟨_, rfl, rfl,
    ((C9_provisioning_accepts_missing_fields [[⟨"base_url", ["https://controller:8443"]⟩]]
      ⟨⟨"unifi_api"⟩⟩).2 _ rfl).2.2.2.2 (by simp [Given])⟩

/-- C9 as stated fails: an empty configuration block gives none of the four
fields, and the provisioning sequence reports no error; the module is served
with four empty strings. -/
theorem C9_counterexample_empty_block_is_accepted :
    (¬ Given [[]] "base_url" ∧ ¬ Given [[]] "nats_url" ∧ ¬ Given [[]] "username" ∧
        ¬ Given [[]] "password") ∧
      ∃ a, provisionSequence [[]] ⟨⟨"unifi_api"⟩⟩ = Except.ok a ∧ a.BaseURL = "" ∧
        a.NATSURL = "" ∧ a.Username = "" ∧ a.Password = "" :=
  ⟨by simp [Given], _, rfl, rfl, rfl, rfl, rfl⟩

end Provisioning

/-! ## Routing -/

section Routing

variable {σ Client : Type}

theorem lookup_filter_ne (h : Header) (c c2 : String) (hne : c2 ≠ c) :
    List.lookup c2 (h.filter (fun kv => kv.1 ≠ c)) = List.lookup c2 h := by
  induction h with
  | nil => rfl
  | cons kv rest ih =>
    obtain ⟨k, v⟩ := kv
    by_cases hk : k = c
    · subst hk
      have h2 : (c2 == k) = false := by simpa using hne
      have h3 : List.filter (fun kv : String × String => decide (kv.1 ≠ k)) ((k, v) :: rest) =
          List.filter (fun kv : String × String => decide (kv.1 ≠ k)) rest := by
        simp [List.filter]
      rw [h3, ih]
      simp [List.lookup, h2]
    · have h3 : List.filter (fun kv : String × String => decide (kv.1 ≠ c)) ((k, v) :: rest) =
          (k, v) :: List.filter (fun kv : String × String => decide (kv.1 ≠ c)) rest := by
        simp [List.filter, hk]
      rw [h3]
      by_cases hk2 : c2 = k
      · subst hk2
        simp [List.lookup]
      · have h2 : (c2 == k) = false := by simpa using hk2
        simp only [List.lookup, h2]
        exact ih

theorem Header.get_set_ne (h : Header) (key value key2 : String)
    (hne : CanonicalMIMEHeaderKey key2 ≠ CanonicalMIMEHeaderKey key) :
    Header.Get (Header.Set h key value) key2 = Header.Get h key2 := by
  have h2 : (CanonicalMIMEHeaderKey key2 == CanonicalMIMEHeaderKey key) = false := by
    simpa using hne
  simp only [Header.Get, Header.Set, List.lookup, h2]
  rw [lookup_filter_ne _ _ _ hne]

theorem notFound_ne_contentType :
    CanonicalMIMEHeaderKey "not-found" ≠ CanonicalMIMEHeaderKey "content-type" := by
  decide

theorem setHeader_contentType_keeps_notFound (rw : ResponseWriter) (value : String) :
    Header.Get (rw.setHeader "content-type" value).header "not-found" =
      Header.Get rw.header "not-found" := by
  simp only [ResponseWriter.setHeader]
  exact Header.get_set_ne _ _ _ _ notFound_ne_contentType

theorem WriteHeader_header (rw : ResponseWriter) (code : Nat) :
    (rw.WriteHeader code).header = rw.header := by
  unfold ResponseWriter.WriteHeader
  cases rw.status <;> rfl

theorem Write_header (rw : ResponseWriter) (p : String) : (rw.Write p).header = rw.header := by
  simp [ResponseWriter.Write, WriteHeader_header]

theorem Encode_header (rw : ResponseWriter) (m : Except GoError String) :
    (Encode rw m).2.header = rw.header := by
  cases m <;> simp [Encode, Write_header]

theorem index_keeps_notFound (rw : ResponseWriter) :
    Header.Get (index rw).header "not-found" = Header.Get rw.header "not-found" := by
  simp only [index, Write_header]
  exact setHeader_contentType_keeps_notFound rw _

theorem list_keeps_notFound (a : API) (env : Env σ Client) (rw : ResponseWriter)
    (w : World σ) :
    Header.Get (list a env rw w).1.header "not-found" = Header.Get rw.header "not-found" := by
  rw [(list_eq a env rw w).1]
  cases hg : (env.Get a.NATSURL (env.DetailBucket baseSubject) env.ActiveKey w.ext).1 with
  | error e => simp [WriteHeader_header]
  | ok into =>
    cases hm : marshalSlice env.marshalClient into with
    | error e => simp [hm, WriteHeader_header, setHeader_contentType_keeps_notFound]
    | ok s => simp [hm, Write_header, setHeader_contentType_keeps_notFound]

theorem block_keeps_notFound (a : API) (env : Env σ Client) (params : Params)
    (rw : ResponseWriter) (w : World σ) :
    Header.Get (block a env params rw w).1.header "not-found" =
      Header.Get rw.header "not-found" := by
  simp only [block]
  split
  · simp [WriteHeader_header]
  · split
    · simp [WriteHeader_header]
    · split <;>
        simp [WriteHeader_header, Encode_header, setHeader_contentType_keeps_notFound]

theorem unblock_keeps_notFound (a : API) (env : Env σ Client) (params : Params)
    (rw : ResponseWriter) (w : World σ) :
    Header.Get (unblock a env params rw w).1.header "not-found" =
      Header.Get rw.header "not-found" := by
  simp only [unblock]
  split
  · simp [WriteHeader_header]
  · split
    · simp [WriteHeader_header]
    · split <;>
        simp [WriteHeader_header, Encode_header, setHeader_contentType_keeps_notFound]

theorem callHandle_keeps_notFound (a : API) (env : Env σ Client) (h : Handle)
    (params : Params) (rw : ResponseWriter) (r : Request) (w : World σ) :
    Header.Get (callHandle a env h params rw r w).1.header "not-found" =
      Header.Get rw.header "not-found" := by
  cases h
  · exact index_keeps_notFound rw
  · exact list_keeps_notFound a env rw w
  · exact block_keeps_notFound a env params rw w
  · exact unblock_keeps_notFound a env params rw w

theorem splitSlash_of_no_slash (l : List Char) (h : '/' ∉ l) : splitSlash l = [l] := by
  induction l with
  | nil => rfl
  | cons c cs ih =>
    have hc : c ≠ '/' := fun hh => h (by simp [hh])
    have hcs : '/' ∉ cs := fun hh => h (List.mem_cons_of_mem _ hh)
    simp [splitSlash, ih hcs, hc]

theorem data_ne_nil_of_ne_empty (name : String) (h : name ≠ "") : name.data ≠ [] := by
  intro hh
  apply h
  cases name with
  | mk data =>
    have hd : data = [] := hh
    subst hd
    rfl

theorem splitSlash_segment (pre name : List Char) (hpre : '/' ∉ pre) (hname : '/' ∉ name) :
    splitSlash (pre ++ '/' :: name) = [pre, name] := by
  induction pre with
  | nil => simp [splitSlash, splitSlash_of_no_slash name hname]
  | cons c cs ih =>
    have hc : c ≠ '/' := fun hh => hpre (by simp [hh])
    have hcs : '/' ∉ cs := fun hh => hpre (List.mem_cons_of_mem _ hh)
    simp [splitSlash, ih hcs, hc]

theorem matchPath_block (name : String) (hne : name ≠ "") (hname : '/' ∉ name.toList) :
    matchPath "/block/:name" ("/block/" ++ name) = some [("name", name)] := by
  have h1 : splitSlash ['b', 'l', 'o', 'c', 'k', '/', ':', 'n', 'a', 'm', 'e'] =
      [['b', 'l', 'o', 'c', 'k'], [':', 'n', 'a', 'm', 'e']] := by decide
  have h2 := splitSlash_segment ['b', 'l', 'o', 'c', 'k'] name.data (by decide) hname
  have h3 := data_ne_nil_of_ne_empty name hne
  show matchSegs (splitSlash ['b', 'l', 'o', 'c', 'k', '/', ':', 'n', 'a', 'm', 'e'])
    (splitSlash (['b', 'l', 'o', 'c', 'k'] ++ '/' :: name.data)) = _
  rw [h1, h2]
  simp [matchSegs, h3]

theorem matchPath_unblock (name : String) (hne : name ≠ "") (hname : '/' ∉ name.toList) :
    matchPath "/unblock/:name" ("/unblock/" ++ name) = some [("name", name)] := by
  have h1 : splitSlash ['u', 'n', 'b', 'l', 'o', 'c', 'k', '/', ':', 'n', 'a', 'm', 'e'] =
      [['u', 'n', 'b', 'l', 'o', 'c', 'k'], [':', 'n', 'a', 'm', 'e']] := by decide
  have h2 := splitSlash_segment ['u', 'n', 'b', 'l', 'o', 'c', 'k'] name.data (by decide) hname
  have h3 := data_ne_nil_of_ne_empty name hne
  show matchSegs (splitSlash ['u', 'n', 'b', 'l', 'o', 'c', 'k', '/', ':', 'n', 'a', 'm', 'e'])
    (splitSlash (['u', 'n', 'b', 'l', 'o', 'c', 'k'] ++ '/' :: name.data)) = _
  rw [h1, h2]
  simp [matchSegs, h3]

theorem matchPath_block_unblock (name : String) :
    matchPath "/block/:name" ("/unblock/" ++ name) = none := by
  show matchSegs (splitSlash ['b', 'l', 'o', 'c', 'k', '/', ':', 'n', 'a', 'm', 'e'])
    (splitSlash ('u' :: 'n' :: 'b' :: 'l' :: 'o' :: 'c' :: 'k' :: '/' :: name.data)) = _
  have h1 : splitSlash ['b', 'l', 'o', 'c', 'k', '/', ':', 'n', 'a', 'm', 'e'] =
      [['b', 'l', 'o', 'c', 'k'], [':', 'n', 'a', 'm', 'e']] := by decide
  rw [h1]
  cases hs : splitSlash name.data with
  | nil => simp [splitSlash, hs, matchSegs]
  | cons seg segs => simp [splitSlash, hs, matchSegs]

theorem getValue_index : getValue registerRouter.routes "GET" "/" = some (Handle.index, []) := by
  decide

theorem getValue_list :
    getValue registerRouter.routes "GET" "/list" = some (Handle.list, []) := by
  decide

theorem registerRouter_routes :
    registerRouter.routes = [⟨"GET", "/", Handle.index⟩, ⟨"GET", "/list", Handle.list⟩,
      ⟨"PUT", "/block/:name", Handle.block⟩, ⟨"PUT", "/unblock/:name", Handle.unblock⟩] := rfl

theorem getValue_block (name : String) (hne : name ≠ "") (hname : '/' ∉ name.toList) :
    getValue registerRouter.routes "PUT" ("/block/" ++ name) =
      some (Handle.block, [("name", name)]) := by
  have hgp : ("GET" : String) ≠ "PUT" := by decide
  rw [registerRouter_routes]
  simp only [getValue, if_neg hgp, if_true, matchPath_block name hne hname]

theorem getValue_unblock (name : String) (hne : name ≠ "") (hname : '/' ∉ name.toList) :
    getValue registerRouter.routes "PUT" ("/unblock/" ++ name) =
      some (Handle.unblock, [("name", name)]) := by
  have hgp : ("GET" : String) ≠ "PUT" := by decide
  rw [registerRouter_routes]
  simp only [getValue, if_neg hgp, if_true, matchPath_block_unblock name,
    matchPath_unblock name hne hname]

theorem treeMethods_registerRouter : treeMethods registerRouter.routes = ["GET", "PUT"] := by
  decide

/-- A request that matches a registered route has a handle in the tree of its
method. -/
theorem getValue_of_matchesRoute (r : Request) (hm : MatchesRoute r) :
    (treeMethods registerRouter.routes).contains r.Method = true ∧
      ∃ h ps, getValue registerRouter.routes r.Method r.Path = some (h, ps) := by
  rw [treeMethods_registerRouter]
  rcases hm with ⟨h1, h2⟩ | ⟨h1, h2⟩ | ⟨h1, name, hne, hname, h2⟩ | ⟨h1, name, hne, hname, h2⟩
  · rw [h1, h2]; exact ⟨by decide, _, _, getValue_index⟩
  · rw [h1, h2]; exact ⟨by decide, _, _, getValue_list⟩
  · rw [h1, h2]; exact ⟨by decide, _, _, getValue_block name hne hname⟩
  · rw [h1, h2]; exact ⟨by decide, _, _, getValue_unblock name hne hname⟩

theorem length_eq_zero_iff (t : String) : t.length = 0 ↔ t = "" := by
  cases t with
  | mk data =>
    constructor
    · intro h
      have hd : data = [] := List.length_eq_zero.mp h
      subst hd
      rfl
    · intro h
      rw [h]
      rfl

theorem router_serves_match
    (call : Handle → Params → ResponseWriter → Request → World σ → ResponseWriter × World σ)
    (fixPath : String → String → Option (String × String)) (rw : ResponseWriter)
    (r : Request) (w : World σ) (h : Handle) (ps : Params)
    (hc : (treeMethods registerRouter.routes).contains r.Method = true)
    (hg : getValue registerRouter.routes r.Method r.Path = some (h, ps)) :
    registerRouter.ServeHTTP call fixPath rw r w = call h ps rw r w := by
  simp only [Router.ServeHTTP, hc, hg, if_true]

theorem ServeHTTP_provisioned (a : API) (ctx : Context) (env : Env σ Client)
    (rw : ResponseWriter) (r : Request) (next : Next σ) (w : World σ) :
    ServeHTTP (Provision a ctx).1 env rw r next w =
      if Header.Get (registerRouter.ServeHTTP (callHandle (Provision a ctx).1 env) env.fixPath
          rw r (w.log Level.debug "ServeHTTP"
            [("method", r.Method), ("path", r.RequestURI), ("remote addr", r.RemoteAddr),
              ("user-agent", Header.Get r.Header "user-agent")])).1.header "not-found" = ""
      then some (none, registerRouter.ServeHTTP (callHandle (Provision a ctx).1 env) env.fixPath
          rw r (w.log Level.debug "ServeHTTP"
            [("method", r.Method), ("path", r.RequestURI), ("remote addr", r.RemoteAddr),
              ("user-agent", Header.Get r.Header "user-agent")]))
      else some (next
        (registerRouter.ServeHTTP (callHandle (Provision a ctx).1 env) env.fixPath
          rw r (w.log Level.debug "ServeHTTP"
            [("method", r.Method), ("path", r.RequestURI), ("remote addr", r.RemoteAddr),
              ("user-agent", Header.Get r.Header "user-agent")])).1 r
        (registerRouter.ServeHTTP (callHandle (Provision a ctx).1 env) env.fixPath
          rw r (w.log Level.debug "ServeHTTP"
            [("method", r.Method), ("path", r.RequestURI), ("remote addr", r.RemoteAddr),
              ("user-agent", Header.Get r.Header "user-agent")])).2) := by
  simp only [ServeHTTP, Provision, length_eq_zero_iff]

theorem allowed_of_unregistered (path reqMethod : String)
    (hget : getValue registerRouter.routes "GET" path = none)
    (hput : getValue registerRouter.routes "PUT" path = none) (hstar : path ≠ "*") :
    registerRouter.allowed path reqMethod = "" := by
  simp [Router.allowed, treeMethods_registerRouter, hstar, hget, hput, List.filter]

theorem router_not_found (call : Handle → Params → ResponseWriter → Request → World σ →
      ResponseWriter × World σ)
    (fixPath : String → String → Option (String × String)) (rw : ResponseWriter)
    (r : Request) (w : World σ)
    (hget : getValue registerRouter.routes "GET" r.Path = none)
    (hput : getValue registerRouter.routes "PUT" r.Path = none) (hstar : r.Path ≠ "*")
    (hfix : fixPath r.Method r.Path = none) :
    registerRouter.ServeHTTP call fixPath rw r w = (rw.setHeader "not-found" "true", w) := by
  have hnf : registerRouter.NotFound = some notFoundHandler := rfl
  have hg : getValue registerRouter.routes r.Method r.Path = none ∨
      (treeMethods registerRouter.routes).contains r.Method = false := by
    by_cases h1 : r.Method = "GET"
    · left; rw [h1]; exact hget
    · by_cases h2 : r.Method = "PUT"
      · left; rw [h2]; exact hput
      · right; simp [treeMethods_registerRouter, h1, h2]
  simp only [Router.ServeHTTP, allowed_of_unregistered _ _ hget hput hstar, hnf, hfix,
    notFoundHandler]
  rcases hg with hg | hg
  · simp [hg]
  · rw [hg]
    simp

/-- A request whose path is registered under no verb, and for which the path
correction of the router finds nothing, is flagged and handed to the next
handler: nothing is written but the `not-found` header. -/
theorem unregistered_path_falls_through (a : API) (ctx : Context) (env : Env σ Client)
    (rw : ResponseWriter) (r : Request) (next : Next σ) (w : World σ)
    (hget : getValue registerRouter.routes "GET" r.Path = none)
    (hput : getValue registerRouter.routes "PUT" r.Path = none) (hstar : r.Path ≠ "*")
    (hfix : env.fixPath r.Method r.Path = none) :
    ServeHTTP (Provision a ctx).1 env rw r next w =
      some (next (rw.setHeader "not-found" "true") r
        (w.log Level.debug "ServeHTTP"
          [("method", r.Method), ("path", r.RequestURI), ("remote addr", r.RemoteAddr),
            ("user-agent", Header.Get r.Header "user-agent")])) := by
  rw [ServeHTTP_provisioned, router_not_found _ _ _ _ _ hget hput hstar hfix]
  have hne : Header.Get (rw.setHeader "not-found" "true").header "not-found" ≠ "" := by
    simp only [ResponseWriter.setHeader, Header.get_set_same]
    decide
  simp only [if_neg hne]

end Routing

/-! ## Claims about routing and fallthrough -/

section RoutingClaims

variable {σ Client : Type}

/-- C10: with the module provisioned, a request that matches one of the four
registered routes and arrives with no `not-found` response header is answered
by the handle of its route and `ServeHTTP` returns nil with that response,
whatever the next handler is; no handle changes the `not-found` header, on any
of its paths; and in general `ServeHTTP` returns the result of the next handler,
run on what the router left, exactly when the `not-found` header is non-empty
after the router has run, and nil with the response of the router otherwise. -/
theorem C10_next_runs_only_on_the_not_found_header (a : API) (ctx : Context)
    (env : Env σ Client) (next : Next σ) (w : World σ) :
    (∀ rw r, MatchesRoute r → Header.Get rw.header "not-found" = "" →
        ∃ h ps w₁, getValue registerRouter.routes r.Method r.Path = some (h, ps) ∧
          w₁.ext = w.ext ∧ w₁.calls = w.calls ∧
          ServeHTTP (Provision a ctx).1 env rw r next w =
            some (none, callHandle (Provision a ctx).1 env h ps rw r w₁)) ∧
      (∀ h ps rw r (w₀ : World σ),
        Header.Get (callHandle (Provision a ctx).1 env h ps rw r w₀).1.header "not-found" =
          Header.Get rw.header "not-found") ∧
      (∀ rw r, ∃ w₁, w₁.ext = w.ext ∧ w₁.calls = w.calls ∧
        ServeHTTP (Provision a ctx).1 env rw r next w =
          if Header.Get (registerRouter.ServeHTTP (callHandle (Provision a ctx).1 env)
              env.fixPath rw r w₁).1.header "not-found" = ""
          then some (none, registerRouter.ServeHTTP (callHandle (Provision a ctx).1 env)
              env.fixPath rw r w₁)
          else some (next
            (registerRouter.ServeHTTP (callHandle (Provision a ctx).1 env)
              env.fixPath rw r w₁).1 r
            (registerRouter.ServeHTTP (callHandle (Provision a ctx).1 env)
              env.fixPath rw r w₁).2)) := by
  refine ⟨?_, ?_, ?_⟩
  · intro rw r hm hnf
    obtain ⟨hc, h, ps, hg⟩ := getValue_of_matchesRoute r hm
    refine ⟨h, ps, w.log Level.debug "ServeHTTP"
      [("method", r.Method), ("path", r.RequestURI), ("remote addr", r.RemoteAddr),
        ("user-agent", Header.Get r.Header "user-agent")], hg, rfl, rfl, ?_⟩
    rw [ServeHTTP_provisioned, router_serves_match _ _ _ _ _ h ps hc hg,
      callHandle_keeps_notFound, if_pos hnf]
  · intro h ps rw r w₀
    exact callHandle_keeps_notFound _ env h ps rw r w₀
  · intro rw r
    exact ⟨w.log Level.debug "ServeHTTP"
      [("method", r.Method), ("path", r.RequestURI), ("remote addr", r.RemoteAddr),
        ("user-agent", Header.Get r.Header "user-agent")], rfl, rfl,
      ServeHTTP_provisioned a ctx env rw r next w⟩

/-- Witness for C10: `PUT /block/alice-phone` on the provisioned demo module. -/
theorem C10_next_runs_only_on_the_not_found_header_witness :
    MatchesRoute (demoRequest "PUT" "/block/alice-phone") ∧
      ∃ h ps w₁, getValue registerRouter.routes "PUT" "/block/alice-phone" = some (h, ps) ∧
        w₁.ext = demoWorld.ext ∧ w₁.calls = demoWorld.calls ∧
        ServeHTTP (Provision demoAPI ⟨⟨"unifi_api"⟩⟩).1 demoEnv ResponseWriter.empty
            (demoRequest "PUT" "/block/alice-phone") demoNext demoWorld =
          some (none, callHandle (Provision demoAPI ⟨⟨"unifi_api"⟩⟩).1 demoEnv h ps
            ResponseWriter.empty (demoRequest "PUT" "/block/alice-phone") w₁) :=
  have hm : MatchesRoute (demoRequest "PUT" "/block/alice-phone") :=
    Or.inr (Or.inr (Or.inl ⟨rfl, "alice-phone", by decide, by decide, by decide⟩))
  ⟨hm, (C10_next_runs_only_on_the_not_found_header demoAPI ⟨⟨"unifi_api"⟩⟩ demoEnv demoNext
    demoWorld).1 ResponseWriter.empty (demoRequest "PUT" "/block/alice-phone") hm rfl⟩

/-- C4 at `DELETE /list`: the request matches none of the four routes, yet the
router answers it itself, because `/list` is registered for `GET`: status 405
with the body `Method Not Allowed` and the header `Allow: GET, OPTIONS`; the
`not-found` header is not set, and whatever the next handler is, `ServeHTTP`
returns nil with that response, so the next handler does not run. -/
theorem C4_delete_list_is_answered_405 (next : Next Nat) :
    ¬ MatchesRoute (demoRequest "DELETE" "/list") ∧
      (ServeHTTP demoAPI demoEnv ResponseWriter.empty (demoRequest "DELETE" "/list") next
          demoWorld).map
        (fun res => (res.1, res.2.1.status, res.2.1.body, Header.Get res.2.1.header "Allow",
          Header.Get res.2.1.header "not-found", res.2.2.calls)) =
        some (none, some 405, "Method Not Allowed\n", "GET, OPTIONS", "", []) := by
  constructor
  · simp [MatchesRoute, demoRequest]
  · rfl

end RoutingClaims

end Unifi
